import Mathlib

/-!
# Verification of the decode-evaluate-repair engine of a hospital timetabling solver

This file gives a shallow embedding of the `Solver` class (Solver.cc) of the
LocalSearch1 repository: the data model (problem instances, dynamic room and
theater states, encoded and decoded solutions), the feasibility checks, the
resource assignment and repair operations, the hard- and soft-constraint
evaluators, the `solve` entry point and the nurse-only local search.

Modelling conventions:
* C++ member functions become functions threading the `Solver` state
  explicitly; `throw` becomes `Except.error`.
* `std::map<int, _>` per-day tables become association lists `List (Int × _)`
  ordered by key (`mapSet` / `mapFind`).  Reads through `operator[]` (which
  value-initialise a missing key) are modelled by `mapFindD` with the
  value-initialised default, which is observationally equivalent because the
  program never distinguishes an absent key from a default-inserted one.
* `std::vector<int>` reads at a possibly out-of-range index (undefined
  behaviour in C++) are modelled by `vecGet`, returning 0 out of range;
  out-of-range writes are dropped by `vecSet`.  Dereferencing a failed
  `std::find_if` iterator (undefined behaviour) is modelled as `Except.error`.
* `std::set` collections that are only counted or aggregated are modelled by
  `List.dedup` of the inserted elements.
-/

/-- Integer interval `[lo, hi)` as a list, matching a C++ `for` loop
`for (int d = lo; d < hi; ++d)`. -/
def intRange (lo hi : Int) : List Int :=
  (List.range (hi - lo).toNat).map (fun k : Nat => lo + (k : Int))

/-- Functional update of a list at an index; out-of-range writes are dropped. -/
def setIdx : List α → Nat → α → List α
  | [], _, _ => []
  | _ :: xs, 0, v => v :: xs
  | x :: xs, n + 1, v => x :: setIdx xs n v

/-- Update the first element satisfying a predicate. -/
def updateFirst (p : α → Bool) (f : α → α) : List α → List α
  | [] => []
  | x :: xs => if p x then f x :: xs else x :: updateFirst p f xs

/-- Find the first element satisfying a predicate together with its index. -/
def findWithIdx (p : α → Bool) : List α → Option (Nat × α)
  | [] => none
  | x :: xs => if p x then some (0, x) else (findWithIdx p xs).map (fun q => (q.1 + 1, q.2))

/-- Pair every element of a list with its position, starting at `n`. -/
def enumFrom (n : Nat) : List α → List (Nat × α)
  | [] => []
  | x :: xs => (n, x) :: enumFrom (n + 1) xs

/-- Ordered association list insertion, mirroring `std::map::operator[] = v`. -/
def mapSet (m : List (Int × α)) (k : Int) (v : α) : List (Int × α) :=
  match m with
  | [] => [(k, v)]
  | (k1, v1) :: rest =>
    if k < k1 then (k, v) :: (k1, v1) :: rest
    else if k = k1 then (k, v) :: rest
    else (k1, v1) :: mapSet rest k v

/-- Association list lookup, mirroring `std::map::find`. -/
def mapFind (m : List (Int × α)) (k : Int) : Option α :=
  match m with
  | [] => none
  | (k1, v1) :: rest => if k = k1 then some v1 else mapFind rest k

/-- Lookup with the value-initialised default, mirroring a read through
`std::map::operator[]`. -/
def mapFindD (m : List (Int × α)) (k : Int) (d : α) : α :=
  (mapFind m k).getD d

/-- Read of `v[i]` for a `std::vector<int>` indexed by a C++ `int`. -/
def vecGet (v : List Int) (i : Int) : Int :=
  if 0 ≤ i then v.getD i.toNat 0 else 0

/-- Write of `v[i] = x` for a `std::vector<int>` indexed by a C++ `int`. -/
def vecSet (v : List Int) (i : Int) (x : Int) : List Int :=
  if 0 ≤ i then setIdx v i.toNat x else v

/-! ## Data model (Solver.h / ProblemInstance.h entities as used by Solver.cc) -/

structure Occupant where
  id : String
  gender : String
  age_group : String
  room_id : String
  length_of_stay : Int
  skill_level_required : List Int
  workload_produced : List Int
  deriving DecidableEq, Repr

structure Patient where
  id : String
  mandatory : Bool
  gender : String
  age_group : String
  surgeon_id : String
  surgery_duration : Int
  surgery_release_day : Int
  surgery_due_day : Int
  length_of_stay : Int
  incompatible_room_ids : List String
  skill_level_required : List Int
  workload_produced : List Int
  deriving DecidableEq, Repr

structure Surgeon where
  id : String
  max_surgery_time : List Int
  deriving DecidableEq, Repr

structure Room where
  id : String
  capacity : Int
  deriving DecidableEq, Repr

structure OperatingTheater where
  id : String
  availability : List Int
  deriving DecidableEq, Repr

structure WorkingShift where
  day : Int
  shift : String
  max_load : Int
  deriving DecidableEq, Repr

structure Nurse where
  id : String
  skill_level : Int
  working_shifts : List WorkingShift
  deriving DecidableEq, Repr

structure Weights where
  room_mixed_age : Int
  room_nurse_skill : Int
  continuity_of_care : Int
  nurse_eccessive_workload : Int
  open_operating_theater : Int
  surgeon_transfer : Int
  patient_delay : Int
  unscheduled_optional : Int
  deriving DecidableEq, Repr

structure ProblemInstance where
  days : Int
  rooms : List Room
  theaters : List OperatingTheater
  surgeons : List Surgeon
  nurses : List Nurse
  patients : List Patient
  occupants : List Occupant
  shift_types : List String
  age_groups : List String
  weights : Weights
  deriving DecidableEq, Repr

structure RoomState where
  room_info : Room
  capacity_per_day : List (Int × Int)
  patients_per_day : List (Int × List Patient)
  occupants_per_day : List (Int × List Occupant)
  deriving DecidableEq, Repr

structure OperatingTheaterState where
  theater_info : OperatingTheater
  availability_per_day : List (Int × Int)
  patients_per_day : List (Int × List Patient)
  deriving DecidableEq, Repr

structure PatientAssignment where
  id : String
  admission_day : Option Int
  room : String
  theater : String
  deriving DecidableEq, Repr

structure ShiftAssignment where
  day : Int
  shift : String
  rooms : List String
  deriving DecidableEq, Repr

structure NurseAssignment where
  id : String
  assignments : List ShiftAssignment
  deriving DecidableEq, Repr

structure Solution where
  roomStates : List RoomState
  theaterStates : List OperatingTheaterState
  patients : List PatientAssignment
  nurses : List NurseAssignment
  soft_constraints : List Int
  total_soft_constraints : Int
  deriving DecidableEq, Repr

structure EncodedPatientSolution where
  patient_id : String
  admission_day : Int
  room_id : String
  deriving DecidableEq, Repr

structure EncodedSolution where
  encoded_patients : List EncodedPatientSolution
  encoded_nurses : List (List String)
  deriving DecidableEq, Repr

structure Solver where
  problem : ProblemInstance
  originalProblem : ProblemInstance
  solution : Solution
  deriving DecidableEq, Repr

/-- The default-constructed (empty) dynamic solution state. -/
def emptySolution : Solution :=
  { roomStates := [], theaterStates := [], patients := [], nurses := [],
    soft_constraints := [], total_soft_constraints := 0 }

/-- The `Solver` constructor: both the working and the pristine copy of the
problem are initialised from the same instance. -/
def mkSolver (problemInstance : ProblemInstance) : Solver :=
  { problem := problemInstance, originalProblem := problemInstance,
    solution := emptySolution }

/-! ## Dynamic state initialisation (`Solver::initializeDynamicStates`) -/

/-- Room state for one room: per-day capacity seeded with the room capacity,
then decremented for each pre-existing occupant of the room on each day of its
remaining stay (clipped to the horizon). -/
def initRoomState (p : ProblemInstance) (room : Room) : RoomState :=
  let base : RoomState :=
    { room_info := room,
      capacity_per_day := (intRange 0 p.days).foldl (fun m d => mapSet m d room.capacity) [],
      patients_per_day := [], occupants_per_day := [] }
  p.occupants.foldl (fun rs occupant =>
    if occupant.room_id == room.id then
      (intRange 0 (min occupant.length_of_stay p.days)).foldl (fun rs2 d =>
        { rs2 with
          occupants_per_day := mapSet rs2.occupants_per_day d
            ((mapFindD rs2.occupants_per_day d []) ++ [occupant]),
          capacity_per_day := mapSet rs2.capacity_per_day d
            ((mapFindD rs2.capacity_per_day d 0) - 1) }) rs
    else rs) base

/-- Theater state for one theater: per-day availability copied from the
declared availability vector. -/
def initTheaterState (p : ProblemInstance) (theater : OperatingTheater) : OperatingTheaterState :=
  { theater_info := theater,
    availability_per_day :=
      (intRange 0 p.days).foldl (fun m d => mapSet m d (vecGet theater.availability d)) [],
    patients_per_day := [] }

/-- `Solver::initializeDynamicStates`: clear all dynamic solution state,
restore the surgeon budgets from the pristine problem copy, and rebuild the
room and theater states. -/
def initializeDynamicStates (s : Solver) : Solver :=
  let problem := { s.problem with surgeons := s.originalProblem.surgeons }
  { s with
    problem := problem,
    solution :=
      { roomStates := problem.rooms.map (initRoomState problem),
        theaterStates := problem.theaters.map (initTheaterState problem),
        patients := [], nurses := [], soft_constraints := [],
        total_soft_constraints := 0 } }

/-! ## Feasibility checks -/

/-- `Solver::checkSurgeonAvailability`: the patient's surgeon must have a
remaining budget on `day` at least the surgery duration; an unknown surgeon id
is a data-consistency fault. -/
def checkSurgeonAvailability (s : Solver) (patient : Patient) (day : Int) : Except String Bool :=
  match s.problem.surgeons.find? (fun sg => sg.id == patient.surgeon_id) with
  | none => .error ("Cirujano no encontrado para el paciente " ++ patient.id)
  | some sg => .ok (patient.surgery_duration ≤ vecGet sg.max_surgery_time day)

/-- Remaining availability of a theater state on a day. -/
def theaterAvailOn (t : OperatingTheaterState) (day : Int) : Int :=
  mapFindD t.availability_per_day day 0

/-- Patients already assigned to a theater state on a day. -/
def theaterPatientsOn (t : OperatingTheaterState) (day : Int) : List Patient :=
  (mapFind t.patients_per_day day).getD []

/-- `Solver::checkOperatingTheaterAvailability`: some theater has remaining
availability at least the surgery duration on `day`. -/
def checkOperatingTheaterAvailability (s : Solver) (patient : Patient) (day : Int) : Bool :=
  s.solution.theaterStates.any (fun t => patient.surgery_duration ≤ theaterAvailOn t day)

/-- One day of the room feasibility check: remaining capacity strictly
positive, and all assigned patients and pre-existing occupants present that
day share the candidate's gender. -/
def roomDayOk (patient : Patient) (rs : RoomState) (day : Int) : Bool :=
  match mapFind rs.capacity_per_day day with
  | none => false
  | some c =>
    0 < c &&
    ((mapFind rs.patients_per_day day).getD []).all (fun q => q.gender == patient.gender) &&
    ((mapFind rs.occupants_per_day day).getD []).all (fun o => o.gender == patient.gender)

/-- `Solver::checkRoomAvailability`: the check above for every day of the stay
interval `[admission_day, admission_day + length_of_stay)` clipped at the
horizon; an unknown room id is a data-consistency fault. -/
def checkRoomAvailability (s : Solver) (patient : Patient) (admission_day : Int)
    (room_id : String) : Except String Bool :=
  match s.solution.roomStates.find? (fun rs => rs.room_info.id == room_id) with
  | none => .error ("Habitacion " ++ room_id ++ " no encontrada en los estados dinamicos.")
  | some rs =>
    .ok ((intRange admission_day
          (min (admission_day + patient.length_of_stay) s.problem.days)).all
          (roomDayOk patient rs))

/-! ## Resource assignment -/

/-- `Solver::assignSurgeon`: decrement the surgeon's budget on `day` by the
surgery duration. -/
def assignSurgeon (s : Solver) (patient : Patient) (day : Int) : Except String Solver :=
  match s.problem.surgeons.find? (fun sg => sg.id == patient.surgeon_id) with
  | none => .error ("Cirujano no encontrado para el paciente " ++ patient.id)
  | some _ =>
    .ok { s with problem := { s.problem with surgeons :=
      (updateFirst (fun sg => sg.id == patient.surgeon_id)
        (fun sg => { sg with max_surgery_time :=
          (vecSet sg.max_surgery_time day
            (vecGet sg.max_surgery_time day - patient.surgery_duration)) })
        s.problem.surgeons) } }

/-- A theater is feasible for a surgery on a day when its remaining
availability covers the duration. -/
def theaterFeasible (dur day : Int) (t : OperatingTheaterState) : Bool :=
  dur ≤ theaterAvailOn t day

/-- A theater counts as open on a day when it already hosts a patient. -/
def theaterIsOpen (day : Int) (t : OperatingTheaterState) : Bool :=
  !(theaterPatientsOn t day).isEmpty

/-- Best-fit choice among open theaters: the first candidate whose remaining
availability after the surgery is strictly smaller than the running best. -/
def pickBestOpen (dur day : Int) :
    List (Nat × OperatingTheaterState) → Option (Nat × OperatingTheaterState)
  | [] => none
  | c :: cs =>
    some (cs.foldl (fun best t =>
      if theaterAvailOn t.2 day - dur < theaterAvailOn best.2 day - dur then t else best) c)

/-- Choice among closed theaters: the first candidate whose current
availability is strictly larger than the running best. -/
def pickBestClosed (day : Int) :
    List (Nat × OperatingTheaterState) → Option (Nat × OperatingTheaterState)
  | [] => none
  | c :: cs =>
    some (cs.foldl (fun best t =>
      if theaterAvailOn best.2 day < theaterAvailOn t.2 day then t else best) c)

/-- Commit a surgery to the theater state at index `i`: append the patient to
the day's list and subtract the duration from the availability. -/
def updateTheaterAt (s : Solver) (i : Nat) (day : Int) (patient : Patient) : Solver :=
  { s with solution := { s.solution with theaterStates :=
      match (enumFrom 0 s.solution.theaterStates).find? (fun c => c.1 == i) with
      | none => s.solution.theaterStates
      | some (_, t) =>
        setIdx s.solution.theaterStates i
          { t with
            patients_per_day := mapSet t.patients_per_day day
              (theaterPatientsOn t day ++ [patient]),
            availability_per_day := mapSet t.availability_per_day day
              (theaterAvailOn t day - patient.surgery_duration) } } }

/-- `Solver::assignOperatingTheater`: two-tier best-fit selection.  Feasible
theaters already hosting a patient that day are preferred, picking the one
left with the least remaining availability; otherwise among feasible unused
theaters the one with the largest availability is opened; otherwise a
capacity-exhausted fault is raised. -/
def assignOperatingTheater (s : Solver) (patient : Patient) (day : Int) :
    Except String (String × Solver) :=
  let ts := enumFrom 0 s.solution.theaterStates
  let dur := patient.surgery_duration
  let openTheaters := ts.filter (fun c => theaterFeasible dur day c.2 && theaterIsOpen day c.2)
  let closedTheaters := ts.filter (fun c => theaterFeasible dur day c.2 && !(theaterIsOpen day c.2))
  match pickBestOpen dur day openTheaters with
  | some (i, t) => .ok (t.theater_info.id, updateTheaterAt s i day patient)
  | none =>
    match pickBestClosed day closedTheaters with
    | some (i, t) => .ok (t.theater_info.id, updateTheaterAt s i day patient)
    | none =>
      .error ("No hay quirofano disponible para el paciente " ++ patient.id ++
        " en el dia " ++ toString day)

/-- The per-day body of `Solver::assignRoom`: check the remaining capacity,
decrement it and append the patient. -/
def assignRoomDays (patient : Patient) (room_id : String) :
    List Int → RoomState → Except String RoomState
  | [], rs => .ok rs
  | day :: rest, rs =>
    match mapFind rs.capacity_per_day day with
    | none =>
      .error ("La habitacion " ++ room_id ++ " no tiene capacidad disponible el dia " ++
        toString day)
    | some c =>
      if c ≤ 0 then
        .error ("La habitacion " ++ room_id ++ " no tiene capacidad disponible el dia " ++
          toString day)
      else
        assignRoomDays patient room_id rest
          { rs with
            capacity_per_day := mapSet rs.capacity_per_day day (c - 1),
            patients_per_day := mapSet rs.patients_per_day day
              ((mapFindD rs.patients_per_day day []) ++ [patient]) }

/-- `Solver::assignRoom`: for every day of the (clipped) stay, decrement the
room's remaining capacity and record the patient; capacity exhaustion during
the commit is a fault. -/
def assignRoom (s : Solver) (patient : Patient) (day : Int) (room_id : String) :
    Except String Solver :=
  match findWithIdx (fun rs => rs.room_info.id == room_id) s.solution.roomStates with
  | none => .error ("Habitacion " ++ room_id ++ " no encontrada en los estados dinamicos.")
  | some (i, rs) => do
    let rs2 ← assignRoomDays patient room_id
      (intRange day (min (day + patient.length_of_stay) s.problem.days)) rs
    .ok { s with solution := { s.solution with roomStates := setIdx s.solution.roomStates i rs2 } }

/-! ## Repair -/

/-- The candidate (day, room) pairs tried by `Solver::repairMandatoryPatient`:
every day from the release day to the due day (clipped to the horizon)
crossed with every room not declared incompatible, in declaration order. -/
def mandatoryCandidates (p : ProblemInstance) (patient : Patient) : List (Int × Room) :=
  (intRange patient.surgery_release_day (min (patient.surgery_due_day + 1) p.days)).flatMap
    (fun d => (p.rooms.filter
        (fun r => !(patient.incompatible_room_ids.contains r.id))).map (fun r => (d, r)))

/-- The candidate (day, room) pairs tried by `Solver::repairOptionalPatient`:
every day from the release day to the end of the horizon crossed with every
compatible room. -/
def optionalCandidates (p : ProblemInstance) (patient : Patient) : List (Int × Room) :=
  (intRange patient.surgery_release_day p.days).flatMap
    (fun d => (p.rooms.filter
        (fun r => !(patient.incompatible_room_ids.contains r.id))).map (fun r => (d, r)))

/-- The shared loop body of both repair routines: write the candidate (day,
room) into the encoded entry, run the three feasibility checks, keep the
candidate on success and revert it on failure. -/
def tryCandidates (s : Solver) (patient : Patient) (enc : EncodedPatientSolution) :
    List (Int × Room) → Except String (Bool × EncodedPatientSolution)
  | [] => .ok (false, enc)
  | (newDay, room) :: rest => do
    let c1 ← checkSurgeonAvailability s patient newDay
    if c1 && checkOperatingTheaterAvailability s patient newDay then do
      let c3 ← checkRoomAvailability s patient newDay room.id
      if c3 then
        .ok (true, { enc with admission_day := newDay, room_id := room.id })
      else
        tryCandidates s patient enc rest
    else
      tryCandidates s patient enc rest

/-- `Solver::repairMandatoryPatient`: exhaustive search over the mandatory
candidate pairs.  The committed pools are only read, never written. -/
def repairMandatoryPatient (s : Solver) (patient : Patient) (enc : EncodedPatientSolution) :
    Except String (Solver × Bool × EncodedPatientSolution) :=
  (tryCandidates s patient enc (mandatoryCandidates s.problem patient)).map
    (fun r => (s, r.1, r.2))

/-- The bounded-retry loop of `Solver::repairOptionalPatient`. -/
def repairOptionalAttempts (s : Solver) (patient : Patient) :
    Nat → EncodedPatientSolution → Except String (Bool × EncodedPatientSolution)
  | 0, enc => .ok (false, enc)
  | n + 1, enc => do
    let r ← tryCandidates s patient enc (optionalCandidates s.problem patient)
    if r.1 then .ok (true, r.2) else repairOptionalAttempts s patient n r.2

/-- `Solver::repairOptionalPatient`: the candidate search retried up to
`MAX_ATTEMPTS = 5` times. -/
def repairOptionalPatient (s : Solver) (patient : Patient) (enc : EncodedPatientSolution) :
    Except String (Solver × Bool × EncodedPatientSolution) :=
  (repairOptionalAttempts s patient 5 enc).map (fun r => (s, r.1, r.2))

/-- A single exhaustive pass over all days in `[release_day, horizon)` crossed
with all compatible rooms, as the specification describes the effective
behaviour of the bounded-retry optional repair. -/
def repairOptionalSinglePass (s : Solver) (patient : Patient) (enc : EncodedPatientSolution) :
    Except String (Solver × Bool × EncodedPatientSolution) :=
  (tryCandidates s patient enc (optionalCandidates s.problem patient)).map
    (fun r => (s, r.1, r.2))

/-! ## Patient processing inside `Solver::solve` -/

/-- Split the encoded patient entries into the mandatory and the optional
list, preserving order; an unknown patient id is a data-consistency fault. -/
def partitionEncoded (patients : List Patient) :
    List EncodedPatientSolution →
    Except String (List EncodedPatientSolution × List EncodedPatientSolution)
  | [] => .ok ([], [])
  | e :: rest =>
    match patients.find? (fun p => p.id == e.patient_id) with
    | none => .error ("Paciente codificado " ++ e.patient_id ++ " no encontrado.")
    | some p => do
      let mo ← partitionEncoded patients rest
      .ok (if p.mandatory then (e :: mo.1, mo.2) else (mo.1, e :: mo.2))

/-- Commit a feasible placement: consume surgeon budget, select and load a
theater, occupy the room, and record the placement. -/
def commitPatient (s : Solver) (patient : Patient) (admissionDay : Int) (room_id : String) :
    Except String Solver := do
  let s1 ← assignSurgeon s patient admissionDay
  let r ← assignOperatingTheater s1 patient admissionDay
  let s3 ← assignRoom r.2 patient admissionDay room_id
  .ok { s3 with solution := { s3.solution with patients := s3.solution.patients ++
    [{ id := patient.id, admission_day := some admissionDay, room := room_id, theater := r.1 }] } }

/-- One iteration of the patient loops of `Solver::solve`: look the patient
up, run the three feasibility checks on the encoded (day, room), repair on
failure (with the mandatory or the optional routine according to the pass),
and either commit the placement or record the patient as unplaced. -/
def processPatient (s : Solver) (mandatoryPass : Bool) (enc : EncodedPatientSolution) :
    Except String Solver :=
  match s.problem.patients.find? (fun p => p.id == enc.patient_id) with
  | none => .error ("Paciente codificado " ++ enc.patient_id ++ " no encontrado.")
  | some patient =>
    match checkSurgeonAvailability s patient enc.admission_day with
    | .error e => .error e
    | .ok c1 =>
      match (if !c1 then .ok false
             else if !(checkOperatingTheaterAvailability s patient enc.admission_day) then
               .ok false
             else checkRoomAvailability s patient enc.admission_day enc.room_id :
             Except String Bool) with
      | .error e => .error e
      | .ok feasible =>
        if feasible then
          commitPatient s patient enc.admission_day enc.room_id
        else
          match (if mandatoryPass then repairMandatoryPatient s patient enc
                 else repairOptionalPatient s patient enc) with
          | .error e => .error e
          | .ok r =>
            if r.2.1 then
              commitPatient r.1 patient r.2.2.admission_day r.2.2.room_id
            else
              .ok { r.1 with solution := { r.1.solution with patients :=
                r.1.solution.patients ++
                [{ id := patient.id, admission_day := none, room := "", theater := "" }] } }

/-- The mandatory (respectively optional) patient loop of `Solver::solve`. -/
def processPatients (mandatoryPass : Bool) :
    Solver → List EncodedPatientSolution → Except String Solver
  | s, [] => .ok s
  | s, e :: rest => do
    let s1 ← processPatient s mandatoryPass e
    processPatients mandatoryPass s1 rest

/-! ## Nurse application -/

/-- Consume one flat nurse-block per working shift, starting at block index
`idx`; the block index advances across nurses. -/
def buildAssignments (blocks : List (List String)) :
    List WorkingShift → Nat → List ShiftAssignment × Nat
  | [], idx => ([], idx)
  | w :: rest, idx =>
    let sa : ShiftAssignment := { day := w.day, shift := w.shift, rooms := blocks.getD idx [] }
    let r := buildAssignments blocks rest (idx + 1)
    (sa :: r.1, r.2)

/-- Map the flat nurse-block encoding onto per-nurse shift assignments in the
fixed (nurse, working-shift) order. -/
def buildNurses (nurses : List Nurse) (blocks : List (List String)) (idx : Nat) :
    List NurseAssignment :=
  match nurses with
  | [] => []
  | n :: rest =>
    let r := buildAssignments blocks n.working_shifts idx
    { id := n.id, assignments := r.1 } :: buildNurses rest blocks r.2

/-- `Solver::applyNurses`: rebuild only the nurse part of the solution from
the encoded nurse blocks. -/
def applyNurses (s : Solver) (enc : EncodedSolution) : Solver :=
  { s with solution := { s.solution with
      nurses := buildNurses s.problem.nurses enc.encoded_nurses 0 } }

/-! ## Soft constraints S1-S8 -/

/-- Index of an age group in the declared age-group order, when declared. -/
def ageIndexOf (age_groups : List String) (g : String) : Option Nat :=
  age_groups.indexOf? g

/-- Days on which a room state holds at least one recorded patient or
occupant entry (the union of the two per-day key sets). -/
def occupiedDaysOf (rs : RoomState) : List Int :=
  ((rs.patients_per_day.map Prod.fst) ++ (rs.occupants_per_day.map Prod.fst)).dedup

/-- Distinct age-group indices present in a room on a day. -/
def s1RoomDayIndices (age_groups : List String) (rs : RoomState) (day : Int) : List Nat :=
  ((((mapFind rs.patients_per_day day).getD []).filterMap
      (fun q => ageIndexOf age_groups q.age_group)) ++
   (((mapFind rs.occupants_per_day day).getD []).filterMap
      (fun o => ageIndexOf age_groups o.age_group))).dedup

/-- S1 `Solver::calculateAgeGroupPenalty`: per occupied room-day with at least
two distinct age-group indices, weight times (max index - min index). -/
def s1Aux (age_groups : List String) (weight : Int) (roomStates : List RoomState) : Int :=
  (roomStates.map (fun rs =>
    ((occupiedDaysOf rs).map (fun day =>
      match s1RoomDayIndices age_groups rs day with
      | [] => 0
      | x :: xs =>
        if 0 < (x :: xs).length - 1 then
          let maxAge : Nat := xs.foldl Nat.max x
          let minAge : Nat := xs.foldl Nat.min x
          weight * ((maxAge : Int) - (minAge : Int))
        else 0)).sum)).sum

def calculateAgeGroupPenalty (s : Solver) : Int :=
  s1Aux s.problem.age_groups s.problem.weights.room_mixed_age s.solution.roomStates

/-- `std::distance(begin, std::find(...))`: position of the shift in the
declared shift-type order, or the number of shift types when absent. -/
def shiftIndexOf (shift_types : List String) (sh : String) : Nat :=
  shift_types.indexOf sh

/-- The patient part of one covered room in S2: every patient present in the
room on the shift day contributes weight times the skill shortfall of the
covering nurse at the patient's stay/shift slot. -/
def s2Patients (weight : Int) (shift_types : List String)
    (solPatients : List PatientAssignment) (nurse : Nurse) (sa : ShiftAssignment) :
    List Patient → Except String Int
  | [] => .ok 0
  | patient :: rest =>
    match solPatients.find? (fun pa => pa.id == patient.id) with
    | none => .error "Paciente no encontrado en la solucion."
    | some pa =>
      match pa.admission_day with
      | none => .error ("Dia de admision no asignado para el paciente " ++ pa.id)
      | some adm => do
        let skillIndex : Int :=
          (sa.day - adm) * (shift_types.length : Int) + ((shiftIndexOf shift_types sa.shift : Nat) : Int)
        let here : Int :=
          if 0 ≤ skillIndex ∧ skillIndex < (patient.skill_level_required.length : Int) then
            let req := patient.skill_level_required.getD skillIndex.toNat 0
            if nurse.skill_level < req then (req - nurse.skill_level) * weight else 0
          else 0
        let more ← s2Patients weight shift_types solPatients nurse sa rest
        .ok (here + more)

/-- The occupant part of one covered room in S2. -/
def s2Occupants (weight : Int) (shift_types : List String) (nurse : Nurse)
    (sa : ShiftAssignment) (occupants : List Occupant) : Int :=
  (occupants.map (fun occupant =>
    let skillIndex : Int :=
      sa.day * (shift_types.length : Int) + ((shiftIndexOf shift_types sa.shift : Nat) : Int)
    if 0 ≤ skillIndex ∧ skillIndex < (occupant.skill_level_required.length : Int) then
      let req := occupant.skill_level_required.getD skillIndex.toNat 0
      if nurse.skill_level < req then (req - nurse.skill_level) * weight else 0
    else 0)).sum

/-- S2 over the rooms of one shift assignment. -/
def s2Rooms (weight : Int) (shift_types : List String) (roomStates : List RoomState)
    (solPatients : List PatientAssignment) (nurse : Nurse) (sa : ShiftAssignment) :
    List String → Except String Int
  | [] => .ok 0
  | roomId :: rest =>
    match roomStates.find? (fun rs => rs.room_info.id == roomId) with
    | none => .error "Habitacion no encontrada en los estados dinamicos."
    | some roomState => do
      let p ← s2Patients weight shift_types solPatients nurse sa
        ((mapFind roomState.patients_per_day sa.day).getD [])
      let o := s2Occupants weight shift_types nurse sa
        ((mapFind roomState.occupants_per_day sa.day).getD [])
      let more ← s2Rooms weight shift_types roomStates solPatients nurse sa rest
      .ok (p + o + more)

/-- S2 over the shift assignments of one nurse. -/
def s2Assignments (weight : Int) (shift_types : List String) (roomStates : List RoomState)
    (solPatients : List PatientAssignment) (nurse : Nurse) :
    List ShiftAssignment → Except String Int
  | [] => .ok 0
  | sa :: rest => do
    let here ← s2Rooms weight shift_types roomStates solPatients nurse sa sa.rooms
    let more ← s2Assignments weight shift_types roomStates solPatients nurse rest
    .ok (here + more)

/-- S2 over all nurse assignments. -/
def s2Aux (nurses : List Nurse) (weight : Int) (shift_types : List String)
    (roomStates : List RoomState) (solPatients : List PatientAssignment) :
    List NurseAssignment → Except String Int
  | [] => .ok 0
  | na :: rest =>
    match nurses.find? (fun n => n.id == na.id) with
    | none => .error "Enfermera no encontrada en los datos del problema."
    | some nurse => do
      let here ← s2Assignments weight shift_types roomStates solPatients nurse na.assignments
      let more ← s2Aux nurses weight shift_types roomStates solPatients rest
      .ok (here + more)

/-- S2 `Solver::calculateMinimumSkillPenalty`. -/
def calculateMinimumSkillPenalty (s : Solver) : Except String Int :=
  s2Aux s.problem.nurses s.problem.weights.room_nurse_skill s.problem.shift_types
    s.solution.roomStates s.solution.patients s.solution.nurses

/-- Ids of the nurses whose assignment for (day, shift) lists the room. -/
def coveringNurseIds (solNurses : List NurseAssignment) (day : Int) (shift : String)
    (roomId : String) : List String :=
  (solNurses.filter (fun na => na.assignments.any (fun a =>
    a.day == day && a.shift == shift && a.rooms.contains roomId))).map (fun na => na.id)

/-- The (day, shift) pairs scanned for one patient or occupant in S3. -/
def s3Pairs (stayDays : List Int) (shift_types : List String) : List (Int × String) :=
  stayDays.flatMap (fun d => shift_types.map (fun sh => (d, sh)))

/-- Collect (with multiplicity) the covering nurse ids over the scanned (day,
shift) pairs; the room is looked up inside the loop, so an unknown room id
faults only when at least one pair is scanned. -/
def s3Collect (roomStates : List RoomState) (solNurses : List NurseAssignment)
    (roomId : String) : List (Int × String) → Except String (List String)
  | [] => .ok []
  | pr :: rest =>
    match roomStates.find? (fun rs => rs.room_info.id == roomId) with
    | none => .error "Habitacion no encontrada en los estados dinamicos."
    | some roomState => do
      let ns := coveringNurseIds solNurses pr.1 pr.2 roomState.room_info.id
      let more ← s3Collect roomStates solNurses roomId rest
      .ok (ns ++ more)

/-- The occupant part of S3: weight times the number of distinct nurses that
cover the occupant's room on any (day, shift) of its remaining stay. -/
def s3OccupantsPenalty (p : ProblemInstance) (roomStates : List RoomState)
    (solNurses : List NurseAssignment) : List Occupant → Except String Int
  | [] => .ok 0
  | occAsg :: rest =>
    match p.occupants.find? (fun o => o.id == occAsg.id) with
    | none => .error "Ocupante no encontrado en los datos del problema."
    | some occupant => do
      let ids ← s3Collect roomStates solNurses occAsg.room_id
        (s3Pairs (intRange 0 (min occupant.length_of_stay p.days)) p.shift_types)
      let more ← s3OccupantsPenalty p roomStates solNurses rest
      .ok (((ids.dedup.length : Nat) : Int) * p.weights.continuity_of_care + more)

/-- The patient part of S3, over the decoded placements with an admission
day. -/
def s3PatientsPenalty (p : ProblemInstance) (roomStates : List RoomState)
    (solNurses : List NurseAssignment) : List PatientAssignment → Except String Int
  | [] => .ok 0
  | pa :: rest =>
    match pa.admission_day with
    | none => s3PatientsPenalty p roomStates solNurses rest
    | some adm =>
      match p.patients.find? (fun q => q.id == pa.id) with
      | none => .error "Paciente no encontrado en los datos del problema."
      | some patient => do
        let ids ← s3Collect roomStates solNurses pa.room
          (s3Pairs (intRange adm (min (adm + patient.length_of_stay) p.days)) p.shift_types)
        let more ← s3PatientsPenalty p roomStates solNurses rest
        .ok (((ids.dedup.length : Nat) : Int) * p.weights.continuity_of_care + more)

/-- S3 `Solver::calculateContinuityOfCarePenalty`. -/
def calculateContinuityOfCarePenalty (s : Solver) : Except String Int := do
  let a ← s3OccupantsPenalty s.problem s.solution.roomStates s.solution.nurses
    s.problem.occupants
  let b ← s3PatientsPenalty s.problem s.solution.roomStates s.solution.nurses
    s.solution.patients
  .ok (a + b)

/-- The patient workload of one covered room in S4; the slot index uses the
hard-coded factor 3 and is bounds-checked with an explicit out-of-range
fault. -/
def s4PatientWorkload (shift_types : List String) (solPatients : List PatientAssignment)
    (day : Int) (shiftIdx : Nat) : List Patient → Except String Int
  | [] => .ok 0
  | patient :: rest =>
    match solPatients.find? (fun pa => pa.id == patient.id) with
    | none => .error "Paciente no encontrado en la solucion."
    | some pa =>
      match pa.admission_day with
      | none => .error ("Dia de admision no asignado para el paciente " ++ pa.id)
      | some adm => do
        let index : Int := (day - adm) * 3 + (shiftIdx : Int)
        if index < 0 ∨ (patient.workload_produced.length : Int) ≤ index then
          .error "Indice fuera de los limites en workload_produced."
        else do
          let more ← s4PatientWorkload shift_types solPatients day shiftIdx rest
          .ok (patient.workload_produced.getD index.toNat 0 + more)

/-- Total workload of one shift assignment over its rooms (patients plus
occupants; the occupant read is an unguarded vector access). -/
def s4RoomsWorkload (shift_types : List String) (roomStates : List RoomState)
    (solPatients : List PatientAssignment) (day : Int) (shiftIdx : Nat) :
    List String → Except String Int
  | [] => .ok 0
  | roomId :: rest =>
    match roomStates.find? (fun rs => rs.room_info.id == roomId) with
    | none => .error "Habitacion no encontrada en los estados dinamicos."
    | some roomState => do
      let p ← s4PatientWorkload shift_types solPatients day shiftIdx
        ((mapFind roomState.patients_per_day day).getD [])
      let o : Int := (((mapFind roomState.occupants_per_day day).getD []).map
        (fun occupant => vecGet occupant.workload_produced (day * 3 + (shiftIdx : Int)))).sum
      let more ← s4RoomsWorkload shift_types roomStates solPatients day shiftIdx rest
      .ok (p + o + more)

/-- S4 over the shift assignments of one nurse: zero-workload shifts are
skipped; otherwise any excess over the declared max load is weighted. -/
def s4Assignments (weight : Int) (shift_types : List String) (roomStates : List RoomState)
    (solPatients : List PatientAssignment) (nurse : Nurse) :
    List ShiftAssignment → Except String Int
  | [] => .ok 0
  | sa :: rest =>
    match nurse.working_shifts.find? (fun ws => ws.day == sa.day && ws.shift == sa.shift) with
    | none => .error "Turno no encontrado en los turnos de trabajo de la enfermera."
    | some workingShift => do
      let totalWorkload ← s4RoomsWorkload shift_types roomStates solPatients sa.day
        (shiftIndexOf shift_types sa.shift) sa.rooms
      let here : Int :=
        if totalWorkload = 0 then 0
        else if workingShift.max_load < totalWorkload then
          (totalWorkload - workingShift.max_load) * weight
        else 0
      let more ← s4Assignments weight shift_types roomStates solPatients nurse rest
      .ok (here + more)

/-- S4 over all nurse assignments. -/
def s4Aux (nurses : List Nurse) (weight : Int) (shift_types : List String)
    (roomStates : List RoomState) (solPatients : List PatientAssignment) :
    List NurseAssignment → Except String Int
  | [] => .ok 0
  | na :: rest =>
    match nurses.find? (fun n => n.id == na.id) with
    | none => .error "Enfermera no encontrada en los datos del problema."
    | some nurse => do
      let here ← s4Assignments weight shift_types roomStates solPatients nurse na.assignments
      let more ← s4Aux nurses weight shift_types roomStates solPatients rest
      .ok (here + more)

/-- S4 `Solver::calculateMaximumWorkloadPenalty`. -/
def calculateMaximumWorkloadPenalty (s : Solver) : Except String Int :=
  s4Aux s.problem.nurses s.problem.weights.nurse_eccessive_workload s.problem.shift_types
    s.solution.roomStates s.solution.patients s.solution.nurses

/-- S5 `Solver::calculateOpenOperatingTheatersPenalty`: weight times the
number of (day, theater) pairs where the theater hosts a patient. -/
def calculateOpenOperatingTheatersPenalty (s : Solver) : Int :=
  (((intRange 0 s.problem.days).map (fun day =>
    ((s.solution.theaterStates.filter
      (fun t => !(theaterPatientsOn t day).isEmpty)).length : Int))).sum) *
  s.problem.weights.open_operating_theater

/-- S6 `Solver::calculateSurgeonTransferPenalty`: per day and surgeon, weight
times (distinct theaters used - 1) when more than one theater is used. -/
def calculateSurgeonTransferPenalty (s : Solver) : Int :=
  ((intRange 0 s.problem.days).map (fun day =>
    let pairs := s.solution.theaterStates.flatMap (fun t =>
      (theaterPatientsOn t day).map (fun q => (q.surgeon_id, t.theater_info.id)))
    (((pairs.map Prod.fst).dedup).map (fun sg =>
      let thtrs := ((pairs.filter (fun pr => pr.1 == sg)).map Prod.snd).dedup
      if 0 < thtrs.length - 1 then
        ((thtrs.length - 1 : Nat) : Int) * s.problem.weights.surgeon_transfer
      else 0)).sum)).sum

/-- S7 body over the decoded placements. -/
def s7Aux (patients : List Patient) : List PatientAssignment → Except String Int
  | [] => .ok 0
  | pa :: rest =>
    match pa.admission_day with
    | none => s7Aux patients rest
    | some adm =>
      match patients.find? (fun q => q.id == pa.id) with
      | none => .error "Paciente no encontrado en los datos del problema."
      | some patient => do
        let more ← s7Aux patients rest
        .ok ((if patient.surgery_release_day < adm then adm - patient.surgery_release_day
              else 0) + more)

/-- S7 `Solver::calculateAdmissionDelayPenalty`: weight times the summed
admission delay past the release day. -/
def calculateAdmissionDelayPenalty (s : Solver) : Except String Int := do
  let p ← s7Aux s.problem.patients s.solution.patients
  .ok (p * s.problem.weights.patient_delay)

/-- S8 body over the problem's optional patients; an optional patient with no
entry in the decoded solution is a fault. -/
def s8Aux (solPatients : List PatientAssignment) : List Patient → Except String Int
  | [] => .ok 0
  | patient :: rest =>
    if patient.mandatory then s8Aux solPatients rest
    else
      match solPatients.find? (fun pa => pa.id == patient.id) with
      | none => .error "Paciente opcional no encontrado en la solucion."
      | some pa => do
        let more ← s8Aux solPatients rest
        .ok ((if pa.admission_day.isNone then 1 else 0) + more)

/-- S8 `Solver::calculateUnscheduledOptionalPatientsPenalty`. -/
def calculateUnscheduledOptionalPatientsPenalty (s : Solver) : Except String Int := do
  let p ← s8Aux s.solution.patients s.problem.patients
  .ok (p * s.problem.weights.unscheduled_optional)

/-- `Solver::calculateSoftConstraints`: compute S1-S8 in order, store the
vector and its total in the solution, and return the total. -/
def calculateSoftConstraints (s : Solver) : Except String (Solver × Int) := do
  let v1 := calculateAgeGroupPenalty s
  let v2 ← calculateMinimumSkillPenalty s
  let v3 ← calculateContinuityOfCarePenalty s
  let v4 ← calculateMaximumWorkloadPenalty s
  let v5 := calculateOpenOperatingTheatersPenalty s
  let v6 := calculateSurgeonTransferPenalty s
  let v7 ← calculateAdmissionDelayPenalty s
  let v8 ← calculateUnscheduledOptionalPatientsPenalty s
  let sc := [v1, v2, v3, v4, v5, v6, v7, v8]
  let total := sc.foldl (fun a b => a + b) 0
  let sol := { s.solution with soft_constraints := sc, total_soft_constraints := total }
  .ok ({ s with solution := sol }, total)

/-! ## Hard constraints H1-H8 -/

/-- H1: count occupied room-days with more than one distinct gender among
patients and occupants. -/
def h1Count (roomStates : List RoomState) : Int :=
  (roomStates.map (fun rs =>
    ((occupiedDaysOf rs).map (fun day =>
      let genders := ((((mapFind rs.patients_per_day day).getD []).map (fun q => q.gender)) ++
        (((mapFind rs.occupants_per_day day).getD []).map (fun o => o.gender))).dedup
      if 0 < genders.length - 1 then (1 : Int) else 0)).sum)).sum

/-- H2: count placed patients occupying a room from their incompatible set. -/
def h2Count (origPatients : List Patient) (solPatients : List PatientAssignment) : Int :=
  (solPatients.map (fun pa =>
    match pa.admission_day with
    | none => 0
    | some _ =>
      match origPatients.find? (fun q => q.id == pa.id) with
      | none => 0
      | some q => if q.incompatible_room_ids.contains pa.room then (1 : Int) else 0)).sum

/-- H3: count surgeon-days where the summed surgery duration of the patients
admitted that day exceeds the declared budget. -/
def h3Count (orig : ProblemInstance) (solPatients : List PatientAssignment) : Int :=
  (orig.surgeons.map (fun sg =>
    ((intRange 0 orig.days).map (fun day =>
      let t : Int := (solPatients.map (fun pa =>
        match pa.admission_day with
        | none => 0
        | some d =>
          match orig.patients.find? (fun q => q.id == pa.id) with
          | none => 0
          | some q =>
            if q.surgeon_id == sg.id && d == day then q.surgery_duration else 0)).sum
      if vecGet sg.max_surgery_time day < t then (1 : Int) else 0)).sum)).sum

/-- H4: count theater-days where the summed surgery duration exceeds the
declared availability (bounds-checked against the availability vector). -/
def h4Count (orig : ProblemInstance) (theaterStates : List OperatingTheaterState) : Int :=
  (theaterStates.map (fun t =>
    (t.patients_per_day.map (fun entry =>
      let total : Int := (entry.2.map (fun q => q.surgery_duration)).sum
      match orig.theaters.find? (fun th => th.id == t.theater_info.id) with
      | none => 0
      | some th =>
        if 0 ≤ entry.1 ∧ entry.1 < (th.availability.length : Int) ∧
            vecGet th.availability entry.1 < total then (1 : Int)
        else 0)).sum)).sum

/-- H5: count mandatory patients whose decoded entry has no admission day.
The C++ code dereferences the result of `std::find_if` without checking it;
a mandatory patient missing from the decoded patient list is therefore
modelled as a fault. -/
def h5Count (solPatients : List PatientAssignment) : List Patient → Except String Int
  | [] => .ok 0
  | q :: rest =>
    if q.mandatory then
      match solPatients.find? (fun pa => pa.id == q.id) with
      | none => .error "Paciente obligatorio sin entrada en la solucion."
      | some pa => do
        let more ← h5Count solPatients rest
        .ok ((if pa.admission_day.isNone then (1 : Int) else 0) + more)
    else h5Count solPatients rest

/-- H6: count placed patients admitted before their release day, or (for
mandatory patients) after their due day. -/
def h6Count (origPatients : List Patient) (solPatients : List PatientAssignment) : Int :=
  (solPatients.map (fun pa =>
    match pa.admission_day with
    | none => 0
    | some d =>
      match origPatients.find? (fun q => q.id == pa.id) with
      | none => 0
      | some q =>
        if d < q.surgery_release_day ∨ (q.mandatory ∧ q.surgery_due_day < d) then (1 : Int)
        else 0)).sum

/-- H7: count room-days (with a patient entry) where patients plus occupants
exceed the room capacity. -/
def h7Count (roomStates : List RoomState) : Int :=
  (roomStates.map (fun rs =>
    (rs.patients_per_day.map (fun entry =>
      let total : Int := (entry.2.length : Int) +
        ((((mapFind rs.occupants_per_day entry.1).getD []).length : Nat) : Int)
      if rs.room_info.capacity < total then (1 : Int) else 0)).sum)).sum

/-- Whether a room state holds a patient or an occupant on a day. -/
def roomOccupiedOn (rs : RoomState) (day : Int) : Bool :=
  !((mapFind rs.patients_per_day day).getD []).isEmpty ||
  !((mapFind rs.occupants_per_day day).getD []).isEmpty

/-- Whether some nurse's assignment for (day, shift) lists the room. -/
def nurseCovers (solNurses : List NurseAssignment) (day : Int) (shift : String)
    (roomId : String) : Bool :=
  solNurses.any (fun na => na.assignments.any (fun a =>
    a.day == day && a.shift == shift && a.rooms.contains roomId))

/-- H8: for every room, every day of the horizon and every declared shift
type, one violation when the room is occupied that day and no nurse covers it
on that (day, shift). -/
def h8Count (origDays : Int) (shift_types : List String) (roomStates : List RoomState)
    (solNurses : List NurseAssignment) : Int :=
  (roomStates.map (fun rs =>
    ((intRange 0 origDays).map (fun day =>
      if roomOccupiedOn rs day then
        ((shift_types.map (fun sh =>
          if nurseCovers solNurses day sh rs.room_info.id then (0 : Int) else 1)).sum)
      else 0)).sum)).sum

/-- `Solver::calculateHardConstraintViolations`: the sum of H1-H8, evaluated
against the pristine problem copy. -/
def hardAux (orig : ProblemInstance) (sol : Solution) : Except String Int := do
  let v5 ← h5Count sol.patients orig.patients
  .ok (h1Count sol.roomStates + h2Count orig.patients sol.patients +
    h3Count orig sol.patients + h4Count orig sol.theaterStates + v5 +
    h6Count orig.patients sol.patients + h7Count sol.roomStates +
    h8Count orig.days orig.shift_types sol.roomStates sol.nurses)

def calculateHardConstraintViolations (s : Solver) : Except String Int :=
  hardAux s.originalProblem s.solution

/-! ## `Solver::solve` -/

/-- The nurse-assignment construction inside `Solver::solve` (identical in
effect to `applyNurses` because the nurse list was cleared by the
initialiser). -/
def solveNursePhase (s : Solver) (enc : EncodedSolution) : Solver :=
  { s with solution := { s.solution with
      nurses := buildNurses s.problem.nurses enc.encoded_nurses 0 } }

/-- Everything `Solver::solve` does after `initializeDynamicStates`: split the
encoding, process mandatory then optional patients, apply the nurse blocks. -/
def solveDecodeFromInit (s : Solver) (enc : EncodedSolution) : Except String Solver := do
  let mo ← partitionEncoded s.problem.patients enc.encoded_patients
  let s1 ← processPatients true s mo.1
  let s2 ← processPatients false s1 mo.2
  .ok (solveNursePhase s2 enc)

/-- The decode phase of `Solver::solve`: reinitialise the dynamic state, then
decode the whole encoding. -/
def solveDecode (s : Solver) (enc : EncodedSolution) : Except String Solver :=
  solveDecodeFromInit (initializeDynamicStates s) enc

/-- The evaluation phase of `Solver::solve`: hard violations, then soft
penalties (which stores the soft vector in the solution). -/
def solveEvaluate (s : Solver) (enc : EncodedSolution) :
    Except String (Solver × EncodedSolution × Int × Int) := do
  let hard ← calculateHardConstraintViolations s
  let r ← calculateSoftConstraints s
  .ok (r.1, enc, hard, r.2)

/-- `Solver::solve`: full decode plus evaluation.  The returned encoding is
the caller's encoding: the patient loops work on internal copies
(`mandatoryEnc` / `optionalEnc`), so repair never writes back into it. -/
def solve (s : Solver) (enc : EncodedSolution) :
    Except String (Solver × EncodedSolution × Int × Int) := do
  let s1 ← solveDecode s enc
  solveEvaluate s1 enc

/-! ## Nurse-only re-optimisation -/

/-- `Solver::computeNurseOnlyCosts`: recompute S2, S3, S4 against the current
nurse assignments, overwrite slots 1-3 of the stored soft vector, recompute
the total, and pair it with a fresh hard-violation count. -/
def computeNurseOnlyCosts (s : Solver) : Except String (Solver × Int × Int) := do
  let v2 ← calculateMinimumSkillPenalty s
  let v3 ← calculateContinuityOfCarePenalty s
  let v4 ← calculateMaximumWorkloadPenalty s
  let sc := setIdx (setIdx (setIdx s.solution.soft_constraints 1 v2) 2 v3) 3 v4
  let total := sc.foldl (fun a b => a + b) 0
  let sol := { s.solution with soft_constraints := sc, total_soft_constraints := total }
  let s1 := { s with solution := sol }
  let hard ← calculateHardConstraintViolations s1
  .ok (s1, hard, total)

/-- The (day, shift) metadata of every nurse block, in the fixed canonical
(nurse, working-shift) order. -/
def blockMetaOf (p : ProblemInstance) : List (Int × String) :=
  p.nurses.flatMap (fun n => n.working_shifts.map (fun ws => (ws.day, ws.shift)))

/-- Whether blocks `i` and `j` share the same (day, shift) metadata (missing
entries read as the value-initialised pair). -/
def sameBlockMeta (meta : List (Int × String)) (i j : Nat) : Bool :=
  let a := meta.getD i (0, "")
  let b := meta.getD j (0, "")
  a.1 == b.1 && a.2 == b.2

/-- Swap the nurse blocks at positions `i` and `j`. -/
def swapBlocks (enc : EncodedSolution) (i j : Nat) : EncodedSolution :=
  let bi := enc.encoded_nurses.getD i []
  let bj := enc.encoded_nurses.getD j []
  { enc with encoded_nurses := setIdx (setIdx enc.encoded_nurses i bj) j bi }

/-- The ordered pair enumeration of the two nested block loops:
`i` ascending, `j` from `i + 1` ascending. -/
def pairIndices (total : Nat) : List (Nat × Nat) :=
  (List.range total).flatMap (fun i =>
    ((List.range total).filter (fun j => i < j)).map (fun j => (i, j)))

/-- The candidate loop of `Solver::localSearchNurses`: swap a pair of
same-(day, shift) blocks, reapply the nurses, recompute the nurse-only costs,
return on the first lexicographic improvement, otherwise revert the swap in
the encoding (the last tried nurse application stays in the solver state, as
in the source) and continue. -/
def lsnLoop (hard0 soft0 : Int) (meta : List (Int × String)) :
    Solver → EncodedSolution → List (Nat × Nat) →
    Except String (Solver × EncodedSolution × Int × Int)
  | s, enc, [] => .ok (s, enc, hard0, soft0)
  | s, enc, (i, j) :: rest =>
    if !(sameBlockMeta meta i j) then lsnLoop hard0 soft0 meta s enc rest
    else do
      let enc2 := swapBlocks enc i j
      let sA := applyNurses s enc2
      let r ← computeNurseOnlyCosts sA
      if r.2.1 < hard0 ∨ (r.2.1 = hard0 ∧ r.2.2 < soft0) then
        .ok (r.1, enc2, r.2.1, r.2.2)
      else
        lsnLoop hard0 soft0 meta r.1 (swapBlocks enc2 i j) rest

/-- `Solver::localSearchNurses`: an initial full solve fixes the patient,
room and theater placement; then all pairs of nurse blocks sharing a (day,
shift) key are tried in order, accepting the first strict lexicographic
improvement. -/
def localSearchNurses (s : Solver) (enc : EncodedSolution) :
    Except String (Solver × EncodedSolution × Int × Int) := do
  let r0 ← solve s enc
  let meta := blockMetaOf r0.1.problem
  lsnLoop r0.2.2.1 r0.2.2.2 meta r0.1 r0.2.1 (pairIndices r0.2.1.encoded_nurses.length)

/-! ## Specification-side definitions used by the claims -/

/-- Strict lexicographic improvement over a (hard, soft) score pair. -/
def improvesLex (hard0 soft0 hardNew softNew : Int) : Prop :=
  hardNew < hard0 ∨ (hardNew = hard0 ∧ softNew < soft0)

/-- The (hard, soft) score of swapping blocks `i` and `j` of `enc` and
re-evaluating the nurse-only costs from state `s`. -/
def nurseEval (s : Solver) (enc : EncodedSolution) (i j : Nat) :
    Except String (Int × Int) :=
  (computeNurseOnlyCosts (applyNurses s (swapBlocks enc i j))).map (fun r => r.2)

/-- The stored soft vector with the nurse-sensitive slots 1-3 blanked out. -/
def maskSoft (l : List Int) : List Int :=
  setIdx (setIdx (setIdx l 1 0) 2 0) 3 0

/-- Equality of the solver components the nurse-only re-optimisation loop
treats as fixed: the problem copies, the room / theater / patient state, and
the soft vector away from the nurse-sensitive slots. -/
def stableEq (s t : Solver) : Prop :=
  s.problem = t.problem ∧ s.originalProblem = t.originalProblem ∧
  s.solution.roomStates = t.solution.roomStates ∧
  s.solution.theaterStates = t.solution.theaterStates ∧
  s.solution.patients = t.solution.patients ∧
  maskSoft s.solution.soft_constraints = maskSoft t.solution.soft_constraints

/-- The contract of `localSearchNurses` relative to the state `s1`, encoding
`enc1` and scores (hard0, soft0) of the initial full solve: either the result
is the first same-key block swap whose nurse-only re-evaluation strictly
improves lexicographically (with no earlier candidate improving), or no
candidate improves, the encoding is returned with all swaps reverted and the
scores of the initial solve are returned. -/
def LsnOutcome (s1 : Solver) (enc1 : EncodedSolution) (hard0 soft0 : Int)
    (out : Solver × EncodedSolution × Int × Int) : Prop :=
  (∃ pre ij post,
     (pairIndices enc1.encoded_nurses.length).filter
       (fun q => sameBlockMeta (blockMetaOf s1.problem) q.1 q.2) = pre ++ ij :: post ∧
     (∀ q ∈ pre, ∀ hv sv, nurseEval s1 enc1 q.1 q.2 = .ok (hv, sv) →
        ¬ improvesLex hard0 soft0 hv sv) ∧
     nurseEval s1 enc1 ij.1 ij.2 = .ok (out.2.2.1, out.2.2.2) ∧
     improvesLex hard0 soft0 out.2.2.1 out.2.2.2 ∧
     out.2.1 = swapBlocks enc1 ij.1 ij.2) ∨
  ((∀ q ∈ (pairIndices enc1.encoded_nurses.length).filter
       (fun q => sameBlockMeta (blockMetaOf s1.problem) q.1 q.2),
      ∀ hv sv, nurseEval s1 enc1 q.1 q.2 = .ok (hv, sv) →
        ¬ improvesLex hard0 soft0 hv sv) ∧
   out.2.1 = enc1 ∧ out.2.2.1 = hard0 ∧ out.2.2.2 = soft0)

/-- Frame contract of the repair routines: the committed pools (surgeon
budgets, theater states, room states) are untouched, the candidate entry
keeps its patient id, and on failure the entry is fully restored. -/
def repairFrame (s : Solver) (enc : EncodedPatientSolution)
    (r : Solver × Bool × EncodedPatientSolution) : Prop :=
  r.1.problem.surgeons = s.problem.surgeons ∧
  r.1.solution.theaterStates = s.solution.theaterStates ∧
  r.1.solution.roomStates = s.solution.roomStates ∧
  r.2.2.patient_id = enc.patient_id ∧
  (r.2.1 = false → r.2.2 = enc)

/-- The specification of the per-stay room feasibility condition: for every
day of the stay interval clipped at the horizon, remaining capacity is
strictly positive and all present patients and occupants share the
candidate's gender. -/
def roomStaySpec (patient : Patient) (rs : RoomState) (admission_day days : Int) : Prop :=
  ∀ day : Int, admission_day ≤ day →
    day < min (admission_day + patient.length_of_stay) days →
    (∃ c, mapFind rs.capacity_per_day day = some c ∧ 0 < c) ∧
    (∀ q ∈ (mapFind rs.patients_per_day day).getD [], q.gender = patient.gender) ∧
    (∀ o ∈ (mapFind rs.occupants_per_day day).getD [], o.gender = patient.gender)

/-- All (room state, day, declared shift type) triples scanned by H8. -/
def h8Triples (origDays : Int) (shift_types : List String)
    (roomStates : List RoomState) : List (RoomState × Int × String) :=
  roomStates.flatMap (fun rs =>
    (intRange 0 origDays).flatMap (fun d => shift_types.map (fun sh => (rs, d, sh))))

/-- An H8 violation at a triple: the room is occupied that day and no nurse
assignment for that (day, shift) lists it. -/
def h8Violation (solNurses : List NurseAssignment) (trip : RoomState × Int × String) : Bool :=
  roomOccupiedOn trip.1 trip.2.1 && !(nurseCovers solNurses trip.2.1 trip.2.2 trip.1.room_info.id)

/-- Number of mandatory problem patients whose decoded entry has no admission
day. -/
def mandatoryUnadmittedCount (origPatients : List Patient)
    (solPatients : List PatientAssignment) : Nat :=
  origPatients.countP (fun p =>
    p.mandatory && decide (∃ pa ∈ solPatients, pa.id = p.id ∧ pa.admission_day = none))

/-- Number of optional problem patients whose decoded entry has no admission
day. -/
def optionalUnadmittedCount (origPatients : List Patient)
    (solPatients : List PatientAssignment) : Nat :=
  origPatients.countP (fun p =>
    !p.mandatory && decide (∃ pa ∈ solPatients, pa.id = p.id ∧ pa.admission_day = none))

/-! ## Concrete instances used by the witnesses and the counterexample -/

/-- All weights zero. -/
def zeroWeights : Weights :=
  { room_mixed_age := 0, room_nurse_skill := 0, continuity_of_care := 0,
    nurse_eccessive_workload := 0, open_operating_theater := 0, surgeon_transfer := 0,
    patient_delay := 0, unscheduled_optional := 0 }

/-- All weights one. -/
def oneWeights : Weights :=
  { room_mixed_age := 1, room_nurse_skill := 1, continuity_of_care := 1,
    nurse_eccessive_workload := 1, open_operating_theater := 1, surgeon_transfer := 1,
    patient_delay := 1, unscheduled_optional := 1 }

/-- A mandatory patient whose surgeon has no budget on day 0 but enough on
day 1: the direct placement at day 0 fails and repair relocates to day 1. -/
def exPatient : Patient :=
  { id := "P", mandatory := true, gender := "M", age_group := "A",
    surgeon_id := "S", surgery_duration := 5, surgery_release_day := 0,
    surgery_due_day := 1, length_of_stay := 1, incompatible_room_ids := [],
    skill_level_required := [], workload_produced := [] }

/-- A two-day instance where `exPatient` must be repaired from day 0 to
day 1. -/
def exProb : ProblemInstance :=
  { days := 2,
    rooms := [{ id := "R", capacity := 1 }],
    theaters := [{ id := "T", availability := [10, 10] }],
    surgeons := [{ id := "S", max_surgery_time := [0, 10] }],
    nurses := [],
    patients := [exPatient],
    occupants := [],
    shift_types := [],
    age_groups := ["A"],
    weights := zeroWeights }

/-- The encoding placing `exPatient` on the infeasible day 0. -/
def exEnc : EncodedSolution :=
  { encoded_patients := [{ patient_id := "P", admission_day := 0, room_id := "R" }],
    encoded_nurses := [] }

/-- The solver state right after initialisation of `exProb`. -/
def exSolver : Solver := initializeDynamicStates (mkSolver exProb)

/-- The encoded entry of `exPatient` before repair. -/
def exEntry : EncodedPatientSolution :=
  { patient_id := "P", admission_day := 0, room_id := "R" }

/-- The encoded entry of `exPatient` after the repair relocates it. -/
def exEntryRepaired : EncodedPatientSolution :=
  { patient_id := "P", admission_day := 1, room_id := "R" }

/-- The empty one-day problem instance. -/
def tinyProb : ProblemInstance :=
  { days := 1, rooms := [], theaters := [], surgeons := [], nurses := [],
    patients := [], occupants := [], shift_types := [], age_groups := [],
    weights := zeroWeights }

/-- The empty encoding. -/
def tinyEnc : EncodedSolution := { encoded_patients := [], encoded_nurses := [] }

/-- The dynamic state stored by `solve` on the empty instance. -/
def tinySolvedSolution : Solution :=
  { roomStates := [], theaterStates := [], patients := [], nurses := [],
    soft_constraints := [0, 0, 0, 0, 0, 0, 0, 0], total_soft_constraints := 0 }

/-- The solver state returned by `solve` on the empty instance. -/
def tinySolved : Solver :=
  { problem := tinyProb, originalProblem := tinyProb, solution := tinySolvedSolution }

/-- A theater state with a tight fit for a duration-5 surgery on day 0. -/
def exTheaterA : OperatingTheaterState :=
  { theater_info := { id := "TA", availability := [10] },
    availability_per_day := [(0, 10)], patients_per_day := [(0, [exPatient])] }

/-- A second open theater state, leaving less slack for a duration-5
surgery. -/
def exTheaterB : OperatingTheaterState :=
  { theater_info := { id := "TB", availability := [7] },
    availability_per_day := [(0, 7)], patients_per_day := [(0, [exPatient])] }

/-- A solver whose dynamic state holds the two open theaters above. -/
def exTheaterSolver : Solver :=
  { problem := exProb, originalProblem := exProb,
    solution := { emptySolution with theaterStates := [exTheaterA, exTheaterB] } }

/-- The mandatory patient of the exactly-once decoding instance. -/
def exactlyOnceM : Patient :=
  { id := "PM", mandatory := true, gender := "M", age_group := "A",
    surgeon_id := "S", surgery_duration := 1, surgery_release_day := 0,
    surgery_due_day := 0, length_of_stay := 1, incompatible_room_ids := [],
    skill_level_required := [], workload_produced := [] }

/-- The optional patient of the exactly-once decoding instance; its surgery
does not fit anywhere, so it stays unplaced. -/
def exactlyOnceO : Patient :=
  { id := "PO", mandatory := false, gender := "M", age_group := "A",
    surgeon_id := "S", surgery_duration := 20, surgery_release_day := 0,
    surgery_due_day := 0, length_of_stay := 1, incompatible_room_ids := [],
    skill_level_required := [], workload_produced := [] }

/-- A one-day instance with one placeable mandatory and one unplaceable
optional patient. -/
def exactlyOnceProb : ProblemInstance :=
  { days := 1,
    rooms := [{ id := "R", capacity := 2 }],
    theaters := [{ id := "T", availability := [10] }],
    surgeons := [{ id := "S", max_surgery_time := [10] }],
    nurses := [],
    patients := [exactlyOnceM, exactlyOnceO],
    occupants := [],
    shift_types := [],
    age_groups := ["A"],
    weights := oneWeights }

/-- The encoding with exactly one entry per patient of `exactlyOnceProb`. -/
def exactlyOnceEnc : EncodedSolution :=
  { encoded_patients := [{ patient_id := "PM", admission_day := 0, room_id := "R" },
      { patient_id := "PO", admission_day := 0, room_id := "R" }],
    encoded_nurses := [] }

/-- The room state of the exactly-once instance after decoding. -/
def exactlyOnceRoomState : RoomState :=
  { room_info := { id := "R", capacity := 2 },
    capacity_per_day := [(0, 1)],
    patients_per_day := [(0, [exactlyOnceM])],
    occupants_per_day := [] }

/-- The theater state of the exactly-once instance after decoding. -/
def exactlyOnceTheaterState : OperatingTheaterState :=
  { theater_info := { id := "T", availability := [10] },
    availability_per_day := [(0, 9)],
    patients_per_day := [(0, [exactlyOnceM])] }

/-- The dynamic state of the exactly-once instance after decoding. -/
def exactlyOnceSolution : Solution :=
  { roomStates := [exactlyOnceRoomState],
    theaterStates := [exactlyOnceTheaterState],
    patients := [{ id := "PM", admission_day := some 0, room := "R", theater := "T" },
      { id := "PO", admission_day := none, room := "", theater := "" }],
    nurses := [], soft_constraints := [], total_soft_constraints := 0 }

/-- The solver state after decoding `exactlyOnceEnc`. -/
def exactlyOnceDecoded : Solver :=
  { problem := { exactlyOnceProb with surgeons := [{ id := "S", max_surgery_time := [9] }] },
    originalProblem := exactlyOnceProb,
    solution := exactlyOnceSolution }

/-- All fields of a problem instance except the surgeon budgets (the only
component of the problem the decode pass mutates). -/
def probSig (p : ProblemInstance) :=
  (p.days, p.rooms, p.theaters, p.nurses, p.patients, p.occupants, p.shift_types,
   p.age_groups, p.weights)

/-- The dynamic room state of `exProb` after initialisation. -/
def exRoomState : RoomState :=
  { room_info := { id := "R", capacity := 1 },
    capacity_per_day := [(0, 1), (1, 1)],
    patients_per_day := [], occupants_per_day := [] }

/-! ## General lemmas -/

theorem exBindOk (a : α) (f : α → Except ε β) : (Except.ok a >>= f) = f a := rfl

theorem exBindErr (e : ε) (f : α → Except ε β) :
    ((Except.error e : Except ε α) >>= f) = Except.error e := rfl

theorem exMapOk (a : α) (f : α → β) :
    ((Except.ok a : Except ε α).map f) = Except.ok (f a) := rfl

theorem exMapErr (e : ε) (f : α → β) :
    ((Except.error e : Except ε α).map f) = Except.error e := rfl

/-! ## Behaviour of the shared repair loop -/

/-- The repair loop body: the returned entry keeps the patient id, failure
restores the entry exactly, and success means the three feasibility checks
all pass at the entry's final (day, room). -/
theorem tryCandidates_spec (s : Solver) (p : Patient) :
    ∀ (cs : List (Int × Room)) (enc : EncodedPatientSolution) (b : Bool)
      (enc' : EncodedPatientSolution),
    tryCandidates s p enc cs = .ok (b, enc') →
    enc'.patient_id = enc.patient_id ∧ (b = false → enc' = enc) ∧
    (b = true →
      checkSurgeonAvailability s p enc'.admission_day = .ok true ∧
      checkOperatingTheaterAvailability s p enc'.admission_day = true ∧
      checkRoomAvailability s p enc'.admission_day enc'.room_id = .ok true) := by
  intro cs
  induction cs with
  | nil =>
    intro enc b enc' h
    simp only [tryCandidates, Except.ok.injEq, Prod.mk.injEq] at h
    obtain ⟨hb, he⟩ := h
    subst hb; subst he
    exact ⟨rfl, fun _ => rfl, fun hcon => by cases hcon⟩
  | cons hd rest ih =>
    obtain ⟨newDay, room⟩ := hd
    intro enc b enc' h
    simp only [tryCandidates] at h
    cases h1 : checkSurgeonAvailability s p newDay with
    | error e =>
      rw [h1, exBindErr] at h
      cases h
    | ok c1 =>
      rw [h1, exBindOk] at h
      by_cases hcond : (c1 && checkOperatingTheaterAvailability s p newDay) = true
      · rw [if_pos hcond] at h
        cases h3 : checkRoomAvailability s p newDay room.id with
        | error e =>
          rw [h3, exBindErr] at h
          cases h
        | ok c3 =>
          rw [h3, exBindOk] at h
          by_cases hc3 : c3 = true
          · rw [if_pos hc3] at h
            simp only [Except.ok.injEq, Prod.mk.injEq] at h
            obtain ⟨hb, he⟩ := h
            subst hb
            subst he
            refine ⟨rfl, ?_, ?_⟩
            · intro hcon; cases hcon
            · intro _
              obtain ⟨hc1, hcot⟩ := Bool.and_eq_true_iff.mp hcond
              subst hc1
              exact ⟨h1, hcot, hc3 ▸ h3⟩
          · rw [if_neg hc3] at h
            exact ih enc b enc' h
      · rw [if_neg hcond] at h
        exact ih enc b enc' h

/-- Any positive number of retry attempts behaves exactly like a single pass
of the candidate loop. -/
theorem repairOptionalAttempts_single (s : Solver) (p : Patient) :
    ∀ (n : Nat) (enc : EncodedPatientSolution),
    repairOptionalAttempts s p (n + 1) enc =
      tryCandidates s p enc (optionalCandidates s.problem p) := by
  intro n
  induction n with
  | zero =>
    intro enc
    simp only [repairOptionalAttempts]
    cases h : tryCandidates s p enc (optionalCandidates s.problem p) with
    | error e => rw [exBindErr]
    | ok r =>
      rw [exBindOk]
      obtain ⟨b, enc'⟩ := r
      by_cases hb : b = true
      · subst hb; rw [if_pos rfl]
      · have hb' : b = false := by revert hb; cases b <;> simp
        subst hb'
        rw [if_neg (by simp)]
  | succ n ih =>
    intro enc
    simp only [repairOptionalAttempts]
    cases h : tryCandidates s p enc (optionalCandidates s.problem p) with
    | error e => rw [exBindErr]
    | ok r =>
      rw [exBindOk]
      obtain ⟨b, enc'⟩ := r
      by_cases hb : b = true
      · subst hb; rw [if_pos rfl]
      · have hb' : b = false := by revert hb; cases b <;> simp
        subst hb'
        rw [if_neg (by simp)]
        have he : enc' = enc := (tryCandidates_spec s p _ enc false enc' h).2.1 rfl
        subst he
        have := ih enc'
        simp only [repairOptionalAttempts] at this
        rw [this, h]

/-- Claim C9: the bounded-retry optional repair (5 attempts) returns the same
result and leaves the encoded entry in the same state as a single exhaustive
pass over all days in [release_day, horizon) crossed with all compatible
rooms: the retries beyond the first pass never change the outcome. -/
theorem claim_C9 (s : Solver) (p : Patient) (enc : EncodedPatientSolution) :
    repairOptionalPatient s p enc = repairOptionalSinglePass s p enc := by
  simp only [repairOptionalPatient, repairOptionalSinglePass]
  rw [show (5 : Nat) = 4 + 1 from rfl, repairOptionalAttempts_single]

/-- Claim C2: when the mandatory repair routine reports success, re-running
the surgeon, operating-theater and room feasibility checks at the mutated
(admission day, room id) of the encoded entry all pass. -/
theorem claim_C2 (s : Solver) (p : Patient) (enc : EncodedPatientSolution)
    (s' : Solver) (enc' : EncodedPatientSolution)
    (h : repairMandatoryPatient s p enc = .ok (s', true, enc')) :
    checkSurgeonAvailability s p enc'.admission_day = .ok true ∧
    checkOperatingTheaterAvailability s p enc'.admission_day = true ∧
    checkRoomAvailability s p enc'.admission_day enc'.room_id = .ok true := by
  simp only [repairMandatoryPatient] at h
  cases htc : tryCandidates s p enc (mandatoryCandidates s.problem p) with
  | error e => rw [htc, exMapErr] at h; cases h
  | ok r =>
    rw [htc, exMapOk] at h
    obtain ⟨b, enc2⟩ := r
    simp only [Except.ok.injEq, Prod.mk.injEq] at h
    obtain ⟨-, hb, he⟩ := h
    rw [← he]
    exact (tryCandidates_spec s p _ enc b enc2 htc).2.2 hb

/-- Claim C2 witness: on the concrete repair instance the relocated entry
(day 1, room R) passes all three checks. -/
theorem claim_C2_witness :
    checkSurgeonAvailability exSolver exPatient exEntryRepaired.admission_day = .ok true ∧
    checkOperatingTheaterAvailability exSolver exPatient exEntryRepaired.admission_day = true ∧
    checkRoomAvailability exSolver exPatient exEntryRepaired.admission_day
      exEntryRepaired.room_id = .ok true :=
  claim_C2 exSolver exPatient exEntry exSolver exEntryRepaired (by rfl)

/-- Claim C8: both repair routines leave the committed resource pools
(surgeon budgets, theater states with their availabilities and patient
lists, room states with their capacities, patient and occupant lists)
untouched; only the candidate entry's admission day and room id may change,
and only on success. -/
theorem claim_C8 (s : Solver) (p : Patient) (enc : EncodedPatientSolution)
    (r : Solver × Bool × EncodedPatientSolution) :
    (repairMandatoryPatient s p enc = .ok r → repairFrame s enc r) ∧
    (repairOptionalPatient s p enc = .ok r → repairFrame s enc r) := by
  constructor
  · intro h
    simp only [repairMandatoryPatient] at h
    cases htc : tryCandidates s p enc (mandatoryCandidates s.problem p) with
    | error e => rw [htc, exMapErr] at h; cases h
    | ok q =>
      rw [htc, exMapOk] at h
      obtain ⟨b, enc2⟩ := q
      cases h
      have hspec := tryCandidates_spec s p _ enc b enc2 htc
      exact ⟨rfl, rfl, rfl, hspec.1, fun hb => hspec.2.1 hb⟩
  · intro h
    simp only [repairOptionalPatient] at h
    rw [show (5 : Nat) = 4 + 1 from rfl, repairOptionalAttempts_single] at h
    cases htc : tryCandidates s p enc (optionalCandidates s.problem p) with
    | error e => rw [htc, exMapErr] at h; cases h
    | ok q =>
      rw [htc, exMapOk] at h
      obtain ⟨b, enc2⟩ := q
      cases h
      have hspec := tryCandidates_spec s p _ enc b enc2 htc
      exact ⟨rfl, rfl, rfl, hspec.1, fun hb => hspec.2.1 hb⟩

/-- Claim C8 witness: the frame contract holds on the concrete successful
mandatory repair. -/
theorem claim_C8_witness :
    repairFrame exSolver exEntry (exSolver, true, exEntryRepaired) :=
  (claim_C8 exSolver exPatient exEntry (exSolver, true, exEntryRepaired)).1 (by rfl)

/-! ## Claim C7: solve and the caller's encoding -/

/-- Claim C7 counterexample: on `exProb` the initial checks fail on day 0 and
the repair relocates the patient to day 1 (visible in the decoded solution),
yet the encoded solution returned by `solve` still carries admission day 0:
the caller-supplied encoding is not mutated. -/
theorem claim_C7_counterexample :
    (solve (mkSolver exProb) exEnc).map
      (fun r => (r.1.solution.patients.map (fun pa => pa.admission_day),
                 r.2.1.encoded_patients.map (fun e => e.admission_day))) =
      .ok ([some 1], [0]) ∧ some (1 : Int) ≠ some (0 : Int) :=
  ⟨by rfl, by decide⟩

/-- Claim C7 (amended): repair relocations are applied only to the internal
copies of the encoded patient entries; the caller-supplied encoded solution
is returned unchanged by `solve`, even when a patient is relocated. -/
theorem claim_C7 (s : Solver) (enc : EncodedSolution)
    (r : Solver × EncodedSolution × Int × Int) (h : solve s enc = .ok r) :
    r.2.1 = enc := by
  simp only [solve, solveEvaluate] at h
  cases hd : solveDecode s enc with
  | error e => rw [hd, exBindErr] at h; cases h
  | ok s1 =>
    rw [hd, exBindOk] at h
    cases hh : calculateHardConstraintViolations s1 with
    | error e => rw [hh, exBindErr] at h; cases h
    | ok hard =>
      rw [hh, exBindOk] at h
      cases hs : calculateSoftConstraints s1 with
      | error e => rw [hs, exBindErr] at h; cases h
      | ok q =>
        rw [hs, exBindOk] at h
        cases h
        rfl

/-- Claim C7 witness: on the empty instance, the encoding returned by `solve`
is the input encoding. -/
theorem claim_C7_witness :
    ((tinySolved, tinyEnc, (0 : Int), (0 : Int)) :
      Solver × EncodedSolution × Int × Int).2.1 = tinyEnc :=
  claim_C7 (mkSolver tinyProb) tinyEnc (tinySolved, tinyEnc, 0, 0) (by rfl)

/-! ## Claim C4: the room feasibility check -/

theorem intRange_mem {lo hi d : Int} : d ∈ intRange lo hi ↔ lo ≤ d ∧ d < hi := by
  constructor
  · intro h
    unfold intRange at h
    obtain ⟨k, hk, hd⟩ := List.mem_map.mp h
    rw [List.mem_range] at hk
    subst hd
    have hk' : (k : Int) < hi - lo := Int.lt_toNat.mp hk
    omega
  · rintro ⟨h1, h2⟩
    unfold intRange
    apply List.mem_map.mpr
    refine ⟨(d - lo).toNat, ?_, ?_⟩
    · rw [List.mem_range, Int.lt_toNat, Int.toNat_of_nonneg (by omega)]
      omega
    · rw [Int.toNat_of_nonneg (by omega)]
      omega

/-- The per-day room check as a proposition. -/
theorem roomDayOk_iff (p : Patient) (rs : RoomState) (day : Int) :
    roomDayOk p rs day = true ↔
    ((∃ c, mapFind rs.capacity_per_day day = some c ∧ 0 < c) ∧
     (∀ q ∈ (mapFind rs.patients_per_day day).getD [], q.gender = p.gender) ∧
     (∀ o ∈ (mapFind rs.occupants_per_day day).getD [], o.gender = p.gender)) := by
  unfold roomDayOk
  cases hc : mapFind rs.capacity_per_day day with
  | none => simp
  | some c =>
    simp only [Bool.and_eq_true, decide_eq_true_eq, List.all_eq_true, beq_iff_eq,
      Option.some.injEq]
    constructor
    · rintro ⟨⟨h1, h2⟩, h3⟩
      exact ⟨⟨c, rfl, h1⟩, fun q hq => h2 q hq, fun o ho => h3 o ho⟩
    · rintro ⟨⟨c2, hc2, h1⟩, h2, h3⟩
      cases hc2
      exact ⟨⟨h1, fun q hq => h2 q hq⟩, fun o ho => h3 o ho⟩

/-- Claim C4: for a known room id, `checkRoomAvailability` returns true iff
every day of the stay interval clipped at the horizon has strictly positive
remaining capacity and gender homogeneity with the candidate; for an unknown
room id it raises a data-consistency fault instead of returning a boolean. -/
theorem claim_C4 (s : Solver) (p : Patient) (admission_day : Int) (room_id : String) :
    (∀ rs, s.solution.roomStates.find? (fun q => q.room_info.id == room_id) = some rs →
      (checkRoomAvailability s p admission_day room_id = .ok true ↔
       roomStaySpec p rs admission_day s.problem.days)) ∧
    (s.solution.roomStates.find? (fun q => q.room_info.id == room_id) = none →
      checkRoomAvailability s p admission_day room_id =
        .error ("Habitacion " ++ room_id ++ " no encontrada en los estados dinamicos.")) := by
  constructor
  · intro rs hfind
    unfold checkRoomAvailability
    rw [hfind]
    simp only [Except.ok.injEq]
    rw [List.all_eq_true]
    unfold roomStaySpec
    constructor
    · intro h day hlo hhi
      exact (roomDayOk_iff p rs day).mp (h day (intRange_mem.mpr ⟨hlo, hhi⟩))
    · intro h day hday
      obtain ⟨hlo, hhi⟩ := intRange_mem.mp hday
      exact (roomDayOk_iff p rs day).mpr (h day hlo hhi)
  · intro hfind
    unfold checkRoomAvailability
    rw [hfind]

/-- Claim C4 witness: the equivalence instantiated on the concrete room state
of `exProb` at admission day 1. -/
theorem claim_C4_witness :
    checkRoomAvailability exSolver exPatient 1 "R" = .ok true ↔
    roomStaySpec exPatient exRoomState 1 exSolver.problem.days :=
  (claim_C4 exSolver exPatient 1 "R").1 exRoomState (by rfl)

/-! ## Claim C6: the H8 count -/

theorem countP_flatMapAux (p : β → Bool) (g : α → List β) :
    ∀ l : List α, (l.flatMap g).countP p = (l.map (fun x => (g x).countP p)).sum := by
  intro l
  induction l with
  | nil => simp
  | cons x xs ih => simp [List.flatMap_cons, List.countP_append, ih]

theorem sum_indicator_countP (p : α → Bool) :
    ∀ l : List α, (l.map (fun x => if p x then (0 : Int) else 1)).sum =
      ((l.countP (fun x => !p x) : Nat) : Int) := by
  intro l
  induction l with
  | nil => simp
  | cons x xs ih =>
    simp only [List.map_cons, List.sum_cons, List.countP_cons, ih]
    by_cases h : p x = true
    · simp [h]
    · have hx : p x = false := by revert h; cases p x <;> simp
      simp [hx]
      ring

theorem h8Room_eq (origDays : Int) (shifts : List String) (solNurses : List NurseAssignment)
    (rs : RoomState) :
    ((intRange 0 origDays).map (fun day =>
      if roomOccupiedOn rs day then
        ((shifts.map (fun sh =>
          if nurseCovers solNurses day sh rs.room_info.id then (0 : Int) else 1)).sum)
      else 0)).sum =
    ((((intRange 0 origDays).flatMap (fun d => shifts.map (fun sh => (rs, d, sh)))).countP
        (h8Violation solNurses) : Nat) : Int) := by
  rw [countP_flatMapAux]
  induction intRange 0 origDays with
  | nil => simp
  | cons d ds ih =>
    simp only [List.map_cons, List.sum_cons]
    rw [ih]
    push_cast
    congr 1
    rw [List.countP_map]
    simp only [Function.comp_def]
    by_cases hocc : roomOccupiedOn rs d = true
    · rw [if_pos hocc, sum_indicator_countP]
      congr 1
      apply List.countP_congr
      intro sh _
      simp [h8Violation, hocc]
    · rw [if_neg hocc]
      have hzero : (shifts.countP (fun sh => h8Violation solNurses (rs, d, sh))) = 0 := by
        apply List.countP_eq_zero.mpr
        intro sh _
        simp only [h8Violation]
        have : roomOccupiedOn rs d = false := by revert hocc; cases roomOccupiedOn rs d <;> simp
        simp [this]
      rw [hzero]
      simp

/-- Claim C6: the H8 count adds exactly one violation for every
(room, day, declared shift type) triple such that the room is occupied that
day and no nurse's assignment for that (day, shift) lists the room.  The
count ranges over every declared shift type unconditionally (in particular
over shift types no nurse ever works, where `nurseCovers` is false for every
room-day), so an occupied room-day fails H8 once per such uncovered shift
type. -/
theorem claim_C6 (origDays : Int) (shifts : List String) (roomStates : List RoomState)
    (solNurses : List NurseAssignment) :
    h8Count origDays shifts roomStates solNurses =
      (((h8Triples origDays shifts roomStates).countP (h8Violation solNurses) : Nat) : Int) := by
  unfold h8Count h8Triples
  rw [countP_flatMapAux]
  induction roomStates with
  | nil => simp
  | cons rs rest ih =>
    simp only [List.map_cons, List.sum_cons]
    rw [ih]
    push_cast
    congr 1
    exact h8Room_eq origDays shifts solNurses rs

/-! ## Claim C3: two-tier best-fit theater selection -/

theorem foldlMin_spec (f : α → Int) :
    ∀ (cs : List α) (c : α),
    (cs.foldl (fun best t => if f t < f best then t else best) c) ∈ c :: cs ∧
    (∀ x ∈ c :: cs,
      f (cs.foldl (fun best t => if f t < f best then t else best) c) ≤ f x) := by
  intro cs
  induction cs with
  | nil =>
    intro c
    refine ⟨List.mem_cons_self c [], ?_⟩
    intro x hx
    rcases List.mem_singleton.mp hx with rfl
    exact le_refl _
  | cons t rest ih =>
    intro c
    simp only [List.foldl_cons]
    have hmain := ih (if f t < f c then t else c)
    by_cases hft : f t < f c
    · rw [if_pos hft] at hmain ⊢
      refine ⟨List.mem_cons_of_mem _ hmain.1, ?_⟩
      intro x hx
      rcases List.mem_cons.mp hx with rfl | hx2
      · exact le_trans (hmain.2 _ (List.mem_cons_self _ _)) (le_of_lt hft)
      · exact hmain.2 _ hx2
    · rw [if_neg hft] at hmain ⊢
      refine ⟨?_, ?_⟩
      · rcases List.mem_cons.mp hmain.1 with h | h
        · rw [h]; exact List.mem_cons_self _ _
        · exact List.mem_cons_of_mem _ (List.mem_cons_of_mem _ h)
      · intro x hx
        rcases List.mem_cons.mp hx with rfl | hx2
        · exact hmain.2 _ (List.mem_cons_self _ _)
        · rcases List.mem_cons.mp hx2 with rfl | hx3
          · exact le_trans (hmain.2 _ (List.mem_cons_self _ _)) (not_lt.mp hft)
          · exact hmain.2 _ (List.mem_cons_of_mem _ hx3)

theorem foldlMax_spec (f : α → Int) :
    ∀ (cs : List α) (c : α),
    (cs.foldl (fun best t => if f best < f t then t else best) c) ∈ c :: cs ∧
    (∀ x ∈ c :: cs,
      f x ≤ f (cs.foldl (fun best t => if f best < f t then t else best) c)) := by
  intro cs
  induction cs with
  | nil =>
    intro c
    refine ⟨List.mem_cons_self c [], ?_⟩
    intro x hx
    rcases List.mem_singleton.mp hx with rfl
    exact le_refl _
  | cons t rest ih =>
    intro c
    simp only [List.foldl_cons]
    have hmain := ih (if f c < f t then t else c)
    by_cases hft : f c < f t
    · rw [if_pos hft] at hmain ⊢
      refine ⟨List.mem_cons_of_mem _ hmain.1, ?_⟩
      intro x hx
      rcases List.mem_cons.mp hx with rfl | hx2
      · exact le_trans (le_of_lt hft) (hmain.2 _ (List.mem_cons_self _ _))
      · exact hmain.2 _ hx2
    · rw [if_neg hft] at hmain ⊢
      refine ⟨?_, ?_⟩
      · rcases List.mem_cons.mp hmain.1 with h | h
        · rw [h]; exact List.mem_cons_self _ _
        · exact List.mem_cons_of_mem _ (List.mem_cons_of_mem _ h)
      · intro x hx
        rcases List.mem_cons.mp hx with rfl | hx2
        · exact hmain.2 _ (List.mem_cons_self _ _)
        · rcases List.mem_cons.mp hx2 with rfl | hx3
          · exact le_trans (not_lt.mp hft) (hmain.2 _ (List.mem_cons_self _ _))
          · exact hmain.2 _ (List.mem_cons_of_mem _ hx3)

theorem enumFrom_snd_mem : ∀ (l : List α) (n : Nat) (x : Nat × α), x ∈ enumFrom n l → x.2 ∈ l := by
  intro l
  induction l with
  | nil => intro n x h; cases h
  | cons a as ih =>
    intro n x h
    simp only [enumFrom, List.mem_cons] at h
    rcases h with rfl | h
    · exact List.mem_cons_self _ _
    · exact List.mem_cons_of_mem _ (ih (n + 1) x h)

theorem mem_enumFrom_of_mem : ∀ (l : List α) (n : Nat) (x : α), x ∈ l →
    ∃ i, (i, x) ∈ enumFrom n l := by
  intro l
  induction l with
  | nil => intro n x h; cases h
  | cons a as ih =>
    intro n x h
    rcases List.mem_cons.mp h with rfl | h
    · exact ⟨n, List.mem_cons_self _ _⟩
    · obtain ⟨i, hi⟩ := ih (n + 1) x h
      exact ⟨i, List.mem_cons_of_mem _ hi⟩

/-! ## Claim C3: two-tier best-fit theater selection -/

theorem pickBestOpen_none (dur day : Int) (l : List (Nat × OperatingTheaterState)) :
    pickBestOpen dur day l = none ↔ l = [] := by
  cases l <;> simp [pickBestOpen]

theorem pickBestClosed_none (day : Int) (l : List (Nat × OperatingTheaterState)) :
    pickBestClosed day l = none ↔ l = [] := by
  cases l <;> simp [pickBestClosed]

theorem pickBestOpen_mem_min (dur day : Int) (l : List (Nat × OperatingTheaterState))
    (r : Nat × OperatingTheaterState) (h : pickBestOpen dur day l = some r) :
    r ∈ l ∧ ∀ x ∈ l, theaterAvailOn r.2 day - dur ≤ theaterAvailOn x.2 day - dur := by
  cases l with
  | nil => cases h
  | cons c cs =>
    simp only [pickBestOpen, Option.some.injEq] at h
    subst h
    exact foldlMin_spec (fun q : Nat × OperatingTheaterState => theaterAvailOn q.2 day - dur) cs c

theorem pickBestClosed_mem_max (day : Int) (l : List (Nat × OperatingTheaterState))
    (r : Nat × OperatingTheaterState) (h : pickBestClosed day l = some r) :
    r ∈ l ∧ ∀ x ∈ l, theaterAvailOn x.2 day ≤ theaterAvailOn r.2 day := by
  cases l with
  | nil => cases h
  | cons c cs =>
    simp only [pickBestClosed, Option.some.injEq] at h
    subst h
    exact foldlMax_spec (fun q : Nat × OperatingTheaterState => theaterAvailOn q.2 day) cs c

/-- Claim C3: `assignOperatingTheater` selects, among feasible theaters that
already host a patient that day, one minimising the remaining availability
after subtracting the surgery duration; when no such open theater exists it
selects, among the feasible unused theaters, one maximising the current
availability; and when no theater is feasible it raises a
capacity-exhausted fault. -/
theorem claim_C3 (s : Solver) (p : Patient) (day : Int) :
    ((∃ t0 ∈ s.solution.theaterStates,
        theaterFeasible p.surgery_duration day t0 = true ∧ theaterIsOpen day t0 = true) →
      ∃ t ∈ s.solution.theaterStates,
        (theaterFeasible p.surgery_duration day t = true ∧ theaterIsOpen day t = true) ∧
        (∀ u ∈ s.solution.theaterStates,
          theaterFeasible p.surgery_duration day u = true → theaterIsOpen day u = true →
          theaterAvailOn t day - p.surgery_duration ≤ theaterAvailOn u day - p.surgery_duration) ∧
        ∃ s2, assignOperatingTheater s p day = .ok (t.theater_info.id, s2)) ∧
    ((∀ t ∈ s.solution.theaterStates,
        ¬(theaterFeasible p.surgery_duration day t = true ∧ theaterIsOpen day t = true)) →
      (∃ t0 ∈ s.solution.theaterStates, theaterFeasible p.surgery_duration day t0 = true) →
      ∃ t ∈ s.solution.theaterStates,
        (theaterFeasible p.surgery_duration day t = true ∧ theaterIsOpen day t = false) ∧
        (∀ u ∈ s.solution.theaterStates,
          theaterFeasible p.surgery_duration day u = true → theaterIsOpen day u = false →
          theaterAvailOn u day ≤ theaterAvailOn t day) ∧
        ∃ s2, assignOperatingTheater s p day = .ok (t.theater_info.id, s2)) ∧
    ((∀ t ∈ s.solution.theaterStates, theaterFeasible p.surgery_duration day t = false) →
      ∃ msg, assignOperatingTheater s p day = .error msg) := by
  refine ⟨?_, ?_, ?_⟩
  · rintro ⟨t0, ht0mem, ht0f, ht0o⟩
    obtain ⟨i0, hi0⟩ := mem_enumFrom_of_mem _ 0 t0 ht0mem
    have hmemf : (i0, t0) ∈ (enumFrom 0 s.solution.theaterStates).filter
        (fun c => theaterFeasible p.surgery_duration day c.2 && theaterIsOpen day c.2) :=
      List.mem_filter.mpr ⟨hi0, by simp [ht0f, ht0o]⟩
    cases hp : pickBestOpen p.surgery_duration day
        ((enumFrom 0 s.solution.theaterStates).filter
          (fun c => theaterFeasible p.surgery_duration day c.2 && theaterIsOpen day c.2)) with
    | none =>
      rw [pickBestOpen_none] at hp
      rw [hp] at hmemf
      cases hmemf
    | some r =>
      obtain ⟨hrmem, hrmin⟩ := pickBestOpen_mem_min _ _ _ _ hp
      have hrFilter := List.mem_filter.mp hrmem
      have hrts := enumFrom_snd_mem _ 0 _ hrFilter.1
      have hrprop : theaterFeasible p.surgery_duration day r.2 = true ∧
          theaterIsOpen day r.2 = true := by
        have := hrFilter.2
        simp only [Bool.and_eq_true] at this
        exact this
      refine ⟨r.2, hrts, hrprop, ?_, ?_⟩
      · intro u hu huf huo
        obtain ⟨j, hj⟩ := mem_enumFrom_of_mem _ 0 u hu
        exact hrmin (j, u) (List.mem_filter.mpr ⟨hj, by simp [huf, huo]⟩)
      · refine ⟨updateTheaterAt s r.1 day p, ?_⟩
        simp only [assignOperatingTheater]
        rw [hp]
  · intro hnoopen
    rintro ⟨t0, ht0mem, ht0f⟩
    have hOL : (enumFrom 0 s.solution.theaterStates).filter
        (fun c => theaterFeasible p.surgery_duration day c.2 && theaterIsOpen day c.2) = [] := by
      apply List.filter_eq_nil_iff.mpr
      intro c hc
      have := hnoopen c.2 (enumFrom_snd_mem _ 0 c hc)
      simp only [Bool.and_eq_true]
      intro hcon
      exact this hcon
    have ht0o : theaterIsOpen day t0 = false := by
      have := hnoopen t0 ht0mem
      revert this
      cases theaterIsOpen day t0 <;> simp [ht0f]
    obtain ⟨i0, hi0⟩ := mem_enumFrom_of_mem _ 0 t0 ht0mem
    have hmemf : (i0, t0) ∈ (enumFrom 0 s.solution.theaterStates).filter
        (fun c => theaterFeasible p.surgery_duration day c.2 && !(theaterIsOpen day c.2)) :=
      List.mem_filter.mpr ⟨hi0, by simp [ht0f, ht0o]⟩
    cases hq : pickBestClosed day
        ((enumFrom 0 s.solution.theaterStates).filter
          (fun c => theaterFeasible p.surgery_duration day c.2 && !(theaterIsOpen day c.2))) with
    | none =>
      rw [pickBestClosed_none] at hq
      rw [hq] at hmemf
      cases hmemf
    | some r =>
      obtain ⟨hrmem, hrmax⟩ := pickBestClosed_mem_max _ _ _ hq
      have hrFilter := List.mem_filter.mp hrmem
      have hrts := enumFrom_snd_mem _ 0 _ hrFilter.1
      have hrprop : theaterFeasible p.surgery_duration day r.2 = true ∧
          theaterIsOpen day r.2 = false := by
        have := hrFilter.2
        simp only [Bool.and_eq_true, Bool.not_eq_true'] at this
        exact this
      refine ⟨r.2, hrts, hrprop, ?_, ?_⟩
      · intro u hu huf huo
        obtain ⟨j, hj⟩ := mem_enumFrom_of_mem _ 0 u hu
        exact hrmax (j, u) (List.mem_filter.mpr ⟨hj, by simp [huf, huo]⟩)
      · refine ⟨updateTheaterAt s r.1 day p, ?_⟩
        simp only [assignOperatingTheater]
        rw [(pickBestOpen_none p.surgery_duration day _).mpr hOL, hq]
  · intro hnofeas
    have hOL : (enumFrom 0 s.solution.theaterStates).filter
        (fun c => theaterFeasible p.surgery_duration day c.2 && theaterIsOpen day c.2) = [] := by
      apply List.filter_eq_nil_iff.mpr
      intro c hc
      simp [hnofeas c.2 (enumFrom_snd_mem _ 0 c hc)]
    have hCL : (enumFrom 0 s.solution.theaterStates).filter
        (fun c => theaterFeasible p.surgery_duration day c.2 && !(theaterIsOpen day c.2)) = [] := by
      apply List.filter_eq_nil_iff.mpr
      intro c hc
      simp [hnofeas c.2 (enumFrom_snd_mem _ 0 c hc)]
    refine ⟨"No hay quirofano disponible para el paciente " ++ p.id ++ " en el dia " ++
      toString day, ?_⟩
    simp only [assignOperatingTheater]
    rw [hOL, hCL]
    rfl

/-- Claim C3 witness: with two open feasible theaters (slack 10 and 7 for a
duration-5 surgery), the selection contract holds concretely. -/
theorem claim_C3_witness :
    ∃ t ∈ exTheaterSolver.solution.theaterStates,
      (theaterFeasible exPatient.surgery_duration 0 t = true ∧ theaterIsOpen 0 t = true) ∧
      (∀ u ∈ exTheaterSolver.solution.theaterStates,
        theaterFeasible exPatient.surgery_duration 0 u = true → theaterIsOpen 0 u = true →
        theaterAvailOn t 0 - exPatient.surgery_duration ≤
          theaterAvailOn u 0 - exPatient.surgery_duration) ∧
      ∃ s2, assignOperatingTheater exTheaterSolver exPatient 0 = .ok (t.theater_info.id, s2) :=
  (claim_C3 exTheaterSolver exPatient 0).1 ⟨exTheaterB, by decide, by decide, by decide⟩

/-! ## Frame lemmas for the decode pipeline -/

theorem repairMandatory_state (s : Solver) (p : Patient) (enc : EncodedPatientSolution)
    (r : Solver × Bool × EncodedPatientSolution)
    (h : repairMandatoryPatient s p enc = .ok r) : r.1 = s := by
  simp only [repairMandatoryPatient] at h
  cases htc : tryCandidates s p enc (mandatoryCandidates s.problem p) with
  | error e => rw [htc, exMapErr] at h; cases h
  | ok q => rw [htc, exMapOk] at h; cases h; rfl

theorem repairOptional_state (s : Solver) (p : Patient) (enc : EncodedPatientSolution)
    (r : Solver × Bool × EncodedPatientSolution)
    (h : repairOptionalPatient s p enc = .ok r) : r.1 = s := by
  simp only [repairOptionalPatient] at h
  cases htc : repairOptionalAttempts s p 5 enc with
  | error e => rw [htc, exMapErr] at h; cases h
  | ok q => rw [htc, exMapOk] at h; cases h; rfl

theorem assignSurgeon_shape (s : Solver) (p : Patient) (d : Int) (s1 : Solver)
    (h : assignSurgeon s p d = .ok s1) :
    s1.originalProblem = s.originalProblem ∧ s1.solution = s.solution ∧
    probSig s1.problem = probSig s.problem := by
  simp only [assignSurgeon] at h
  cases hf : s.problem.surgeons.find? (fun sg => sg.id == p.surgeon_id) with
  | none => rw [hf] at h; cases h
  | some sg =>
    rw [hf] at h
    cases h
    exact ⟨rfl, rfl, rfl⟩

theorem assignOperatingTheater_shape (s : Solver) (p : Patient) (d : Int)
    (r : String × Solver) (h : assignOperatingTheater s p d = .ok r) :
    r.2.problem = s.problem ∧ r.2.originalProblem = s.originalProblem ∧
    r.2.solution.roomStates = s.solution.roomStates ∧
    r.2.solution.patients = s.solution.patients ∧
    r.2.solution.nurses = s.solution.nurses ∧
    r.2.solution.soft_constraints = s.solution.soft_constraints ∧
    r.2.solution.total_soft_constraints = s.solution.total_soft_constraints := by
  simp only [assignOperatingTheater] at h
  cases hp : pickBestOpen p.surgery_duration d
      ((enumFrom 0 s.solution.theaterStates).filter
        (fun c => theaterFeasible p.surgery_duration d c.2 && theaterIsOpen d c.2)) with
  | some q =>
    obtain ⟨i, t⟩ := q
    rw [hp] at h
    cases h
    exact ⟨rfl, rfl, rfl, rfl, rfl, rfl, rfl⟩
  | none =>
    rw [hp] at h
    cases hq : pickBestClosed d
        ((enumFrom 0 s.solution.theaterStates).filter
          (fun c => theaterFeasible p.surgery_duration d c.2 && !(theaterIsOpen d c.2))) with
    | some q =>
      obtain ⟨i, t⟩ := q
      rw [hq] at h
      cases h
      exact ⟨rfl, rfl, rfl, rfl, rfl, rfl, rfl⟩
    | none =>
      rw [hq] at h
      cases h

theorem assignRoom_shape (s : Solver) (p : Patient) (d : Int) (rid : String) (s1 : Solver)
    (h : assignRoom s p d rid = .ok s1) :
    s1.problem = s.problem ∧ s1.originalProblem = s.originalProblem ∧
    s1.solution.theaterStates = s.solution.theaterStates ∧
    s1.solution.patients = s.solution.patients ∧
    s1.solution.nurses = s.solution.nurses ∧
    s1.solution.soft_constraints = s.solution.soft_constraints ∧
    s1.solution.total_soft_constraints = s.solution.total_soft_constraints := by
  simp only [assignRoom] at h
  split at h
  · cases h
  · rename_i i rs heq
    cases hd : assignRoomDays p rid
        (intRange d (min (d + p.length_of_stay) s.problem.days)) rs with
    | error e => rw [hd, exBindErr] at h; cases h
    | ok rs2 =>
      rw [hd, exBindOk] at h
      cases h
      exact ⟨rfl, rfl, rfl, rfl, rfl, rfl, rfl⟩

theorem commitPatient_shape (s : Solver) (p : Patient) (d : Int) (rid : String) (s1 : Solver)
    (h : commitPatient s p d rid = .ok s1) :
    s1.originalProblem = s.originalProblem ∧ probSig s1.problem = probSig s.problem ∧
    s1.solution.nurses = s.solution.nurses ∧
    s1.solution.soft_constraints = s.solution.soft_constraints ∧
    s1.solution.total_soft_constraints = s.solution.total_soft_constraints ∧
    ∃ pa, s1.solution.patients = s.solution.patients ++ [pa] ∧ pa.id = p.id := by
  simp only [commitPatient] at h
  cases h1 : assignSurgeon s p d with
  | error e => rw [h1, exBindErr] at h; cases h
  | ok sA =>
    rw [h1, exBindOk] at h
    cases h2 : assignOperatingTheater sA p d with
    | error e => rw [h2, exBindErr] at h; cases h
    | ok r2 =>
      rw [h2, exBindOk] at h
      cases h3 : assignRoom r2.2 p d rid with
      | error e => rw [h3, exBindErr] at h; cases h
      | ok sC =>
        rw [h3, exBindOk] at h
        cases h
        obtain ⟨hA1, hA2, hA3⟩ := assignSurgeon_shape s p d sA h1
        obtain ⟨hB1, hB2, hB3, hB4, hB5, hB6, hB7⟩ :=
          assignOperatingTheater_shape sA p d r2 h2
        obtain ⟨hC1, hC2, hC3, hC4, hC5, hC6, hC7⟩ := assignRoom_shape r2.2 p d rid sC h3
        refine ⟨?_, ?_, ?_, ?_, ?_, ?_⟩
        · rw [hC2, hB2, hA1]
        · rw [show probSig sC.problem = probSig sA.problem from by rw [hC1, hB1], hA3]
        · show sC.solution.nurses = s.solution.nurses
          rw [hC5, hB5, hA2]
        · show sC.solution.soft_constraints = s.solution.soft_constraints
          rw [hC6, hB6, hA2]
        · show sC.solution.total_soft_constraints = s.solution.total_soft_constraints
          rw [hC7, hB7, hA2]
        · refine ⟨{ id := p.id, admission_day := some d, room := rid, theater := r2.1 },
            ?_, rfl⟩
          show sC.solution.patients ++ _ = s.solution.patients ++ _
          rw [hC4, hB4, hA2]

theorem processPatient_shape (s : Solver) (b : Bool) (e : EncodedPatientSolution) (s1 : Solver)
    (h : processPatient s b e = .ok s1) :
    s1.originalProblem = s.originalProblem ∧ probSig s1.problem = probSig s.problem ∧
    s1.solution.nurses = s.solution.nurses ∧
    s1.solution.soft_constraints = s.solution.soft_constraints ∧
    s1.solution.total_soft_constraints = s.solution.total_soft_constraints ∧
    ∃ pa, s1.solution.patients = s.solution.patients ++ [pa] ∧ pa.id = e.patient_id := by
  simp only [processPatient] at h
  split at h
  · cases h
  · rename_i patient hfind
    have hpid : patient.id = e.patient_id := by
      have := List.find?_some hfind
      simpa using this
    split at h
    · cases h
    · rename_i c1 hc1
      split at h
      · cases h
      · rename_i feasible hfe
        split at h
        · obtain ⟨o1, o2, o3, o4, o5, pa, hpa, hpaid⟩ :=
            commitPatient_shape s patient e.admission_day e.room_id s1 h
          exact ⟨o1, o2, o3, o4, o5, pa, hpa, hpaid.trans hpid⟩
        · split at h
          · cases h
          · rename_i r hrep
            have hr1 : r.1 = s := by
              by_cases hb : b = true
              · subst hb
                rw [if_pos rfl] at hrep
                exact repairMandatory_state _ _ _ _ hrep
              · have hb2 : b = false := by revert hb; cases b <;> simp
                subst hb2
                rw [if_neg (by simp)] at hrep
                exact repairOptional_state _ _ _ _ hrep
            split at h
            · obtain ⟨o1, o2, o3, o4, o5, pa, hpa, hpaid⟩ :=
                commitPatient_shape r.1 patient r.2.2.admission_day r.2.2.room_id s1 h
              rw [hr1] at o1 o2 o3 o4 o5 hpa
              exact ⟨o1, o2, o3, o4, o5, pa, hpa, hpaid.trans hpid⟩
            · cases h
              rw [hr1]
              exact ⟨rfl, rfl, rfl, rfl, rfl, ⟨_, rfl, hpid⟩⟩

theorem processPatients_shape (b : Bool) :
    ∀ (encs : List EncodedPatientSolution) (s s1 : Solver),
    processPatients b s encs = .ok s1 →
    s1.originalProblem = s.originalProblem ∧ probSig s1.problem = probSig s.problem ∧
    s1.solution.nurses = s.solution.nurses ∧
    s1.solution.soft_constraints = s.solution.soft_constraints ∧
    s1.solution.total_soft_constraints = s.solution.total_soft_constraints ∧
    ∀ c : String, s1.solution.patients.countP (fun pa => pa.id == c) =
      s.solution.patients.countP (fun pa => pa.id == c) +
      encs.countP (fun e2 => e2.patient_id == c) := by
  intro encs
  induction encs with
  | nil =>
    intro s s1 h
    simp only [processPatients] at h
    cases h
    exact ⟨rfl, rfl, rfl, rfl, rfl, fun c => by simp⟩
  | cons e rest ih =>
    intro s s1 h
    simp only [processPatients] at h
    cases hp : processPatient s b e with
    | error er => rw [hp, exBindErr] at h; cases h
    | ok sMid =>
      rw [hp, exBindOk] at h
      obtain ⟨o1, o2, o3, o4, o5, pa, hpa, hpaid⟩ := processPatient_shape s b e sMid hp
      obtain ⟨p1, p2, p3, p4, p5, p6⟩ := ih sMid s1 h
      refine ⟨p1.trans o1, p2.trans o2, p3.trans o3, p4.trans o4, p5.trans o5, ?_⟩
      intro c
      rw [p6 c, hpa, List.countP_append]
      simp only [List.countP_cons, List.countP_nil, hpaid]
      omega

theorem partitionEncoded_countP (patients : List Patient) :
    ∀ (encs m o : List EncodedPatientSolution),
    partitionEncoded patients encs = .ok (m, o) →
    ∀ q : EncodedPatientSolution → Bool, m.countP q + o.countP q = encs.countP q := by
  intro encs
  induction encs with
  | nil =>
    intro m o h q
    simp only [partitionEncoded] at h
    cases h
    simp
  | cons e rest ih =>
    intro m o h q
    simp only [partitionEncoded] at h
    split at h
    · cases h
    · rename_i p hfind
      cases hrec : partitionEncoded patients rest with
      | error er => rw [hrec, exBindErr] at h; cases h
      | ok mo =>
        rw [hrec, exBindOk] at h
        by_cases hm : p.mandatory = true
        · rw [if_pos hm] at h
          simp only [Except.ok.injEq, Prod.mk.injEq] at h
          obtain ⟨h1, h2⟩ := h
          subst h1
          subst h2
          have := ih mo.1 mo.2 (by rw [hrec]) q
          simp only [List.countP_cons]
          omega
        · have hm2 : p.mandatory = false := by revert hm; cases p.mandatory <;> simp
          rw [hm2, if_neg (by simp)] at h
          simp only [Except.ok.injEq, Prod.mk.injEq] at h
          obtain ⟨h1, h2⟩ := h
          subst h1
          subst h2
          have := ih mo.1 mo.2 (by rw [hrec]) q
          simp only [List.countP_cons]
          omega

theorem countP_one_unique (q : α → Bool) :
    ∀ (l : List α), l.countP q = 1 →
    ∀ x ∈ l, q x = true → ∀ y ∈ l, q y = true → x = y := by
  intro l
  induction l with
  | nil => intro h x hx; cases hx
  | cons z rest ih =>
    intro h x hx hqx y hy hqy
    rw [List.countP_cons] at h
    by_cases hz : q z = true
    · rw [if_pos hz] at h
      have hrest : rest.countP q = 0 := by omega
      have hnone := List.countP_eq_zero.mp hrest
      rcases List.mem_cons.mp hx with rfl | hx2
      · rcases List.mem_cons.mp hy with rfl | hy2
        · rfl
        · exact absurd hqy (by simpa using hnone y hy2)
      · exact absurd hqx (by simpa using hnone x hx2)
    · rw [if_neg hz] at h
      rcases List.mem_cons.mp hx with rfl | hx2
      · exact absurd hqx hz
      · rcases List.mem_cons.mp hy with rfl | hy2
        · exact absurd hqy hz
        · exact ih (by omega) x hx2 hqx y hy2 hqy

theorem find?_isSome_of_countP_one (q : α → Bool) (l : List α) (h : l.countP q = 1) :
    ∃ a, l.find? q = some a := by
  have hpos : 0 < l.countP q := by omega
  obtain ⟨x, hx, hqx⟩ := List.countP_pos_iff.mp hpos
  have : (l.find? q).isSome = true := List.find?_isSome.mpr ⟨x, hx, hqx⟩
  exact Option.isSome_iff_exists.mp this

theorem h5Count_eq_count (sol : List PatientAssignment) :
    ∀ (ps : List Patient),
    (∀ p ∈ ps, p.mandatory = true → sol.countP (fun pa => pa.id == p.id) = 1) →
    h5Count sol ps = .ok ((mandatoryUnadmittedCount ps sol : Nat) : Int) := by
  intro ps
  induction ps with
  | nil => intro hok; simp [h5Count, mandatoryUnadmittedCount]
  | cons p rest ih =>
    intro hok
    have hrest := ih (fun p2 hp2 hm2 => hok p2 (List.mem_cons_of_mem _ hp2) hm2)
    by_cases hm : p.mandatory = true
    · have hc := hok p (List.mem_cons_self _ _) hm
      obtain ⟨a, ha⟩ := find?_isSome_of_countP_one _ _ hc
      have hstep : h5Count sol (p :: rest) =
          (do
            let more ← h5Count sol rest
            Except.ok ((if a.admission_day.isNone then (1 : Int) else 0) + more)) := by
        simp only [h5Count]
        rw [if_pos hm, ha]
      rw [hstep, hrest, exBindOk]
      have hiff : (∃ pa ∈ sol, pa.id = p.id ∧ pa.admission_day = none) ↔
          a.admission_day = none := by
        constructor
        · rintro ⟨x, hx, hid, hday⟩
          have haq := List.find?_some ha
          have hxa := countP_one_unique _ sol hc x hx (by simp [hid]) a
            (List.mem_of_find?_eq_some ha) haq
          rwa [← hxa]
        · intro hday
          refine ⟨a, List.mem_of_find?_eq_some ha, ?_, hday⟩
          have := List.find?_some ha
          simpa using this
      simp only [mandatoryUnadmittedCount, List.countP_cons, hm, Bool.true_and]
      by_cases hnone : a.admission_day = none
      · have h1 : a.admission_day.isNone = true := by simp [hnone]
        have h2 : decide (∃ pa ∈ sol, pa.id = p.id ∧ pa.admission_day = none) = true := by
          simp only [decide_eq_true_eq]
          exact hiff.mpr hnone
        rw [h1, h2]
        simp only [mandatoryUnadmittedCount] at hrest ⊢
        push_cast
        ring
      · have h1 : a.admission_day.isNone = false := by
          revert hnone
          cases a.admission_day <;> simp
        have h2 : decide (∃ pa ∈ sol, pa.id = p.id ∧ pa.admission_day = none) = false := by
          simp only [decide_eq_false_iff_not]
          intro hcon
          exact hnone (hiff.mp hcon)
        rw [h1, h2]
        simp only [mandatoryUnadmittedCount] at hrest ⊢
        push_cast
        ring
    · have hm2 : p.mandatory = false := by revert hm; cases p.mandatory <;> simp
      have hstep : h5Count sol (p :: rest) = h5Count sol rest := by
        simp only [h5Count]
        rw [if_neg (by simp [hm2])]
      rw [hstep, hrest]
      simp [mandatoryUnadmittedCount, List.countP_cons, hm2]

theorem s8Aux_eq_count (sol : List PatientAssignment) :
    ∀ (ps : List Patient),
    (∀ p ∈ ps, p.mandatory = false → sol.countP (fun pa => pa.id == p.id) = 1) →
    s8Aux sol ps = .ok ((optionalUnadmittedCount ps sol : Nat) : Int) := by
  intro ps
  induction ps with
  | nil => intro hok; simp [s8Aux, optionalUnadmittedCount]
  | cons p rest ih =>
    intro hok
    have hrest := ih (fun p2 hp2 hm2 => hok p2 (List.mem_cons_of_mem _ hp2) hm2)
    by_cases hm : p.mandatory = true
    · have hstep : s8Aux sol (p :: rest) = s8Aux sol rest := by
        simp only [s8Aux]
        rw [if_pos hm]
      rw [hstep, hrest]
      simp [optionalUnadmittedCount, List.countP_cons, hm]
    · have hm2 : p.mandatory = false := by revert hm; cases p.mandatory <;> simp
      have hc := hok p (List.mem_cons_self _ _) hm2
      obtain ⟨a, ha⟩ := find?_isSome_of_countP_one _ _ hc
      have hstep : s8Aux sol (p :: rest) =
          (do
            let more ← s8Aux sol rest
            Except.ok ((if a.admission_day.isNone then (1 : Int) else 0) + more)) := by
        simp only [s8Aux]
        rw [if_neg (by simp [hm2]), ha]
      rw [hstep, hrest, exBindOk]
      have hiff : (∃ pa ∈ sol, pa.id = p.id ∧ pa.admission_day = none) ↔
          a.admission_day = none := by
        constructor
        · rintro ⟨x, hx, hid, hday⟩
          have haq := List.find?_some ha
          have hxa := countP_one_unique _ sol hc x hx (by simp [hid]) a
            (List.mem_of_find?_eq_some ha) haq
          rwa [← hxa]
        · intro hday
          refine ⟨a, List.mem_of_find?_eq_some ha, ?_, hday⟩
          have := List.find?_some ha
          simpa using this
      simp only [optionalUnadmittedCount, List.countP_cons, hm2, Bool.not_false, Bool.true_and]
      by_cases hnone : a.admission_day = none
      · have h1 : a.admission_day.isNone = true := by simp [hnone]
        have h2 : decide (∃ pa ∈ sol, pa.id = p.id ∧ pa.admission_day = none) = true := by
          simp only [decide_eq_true_eq]
          exact hiff.mpr hnone
        rw [h1, h2]
        simp only [optionalUnadmittedCount] at hrest ⊢
        push_cast
        ring
      · have h1 : a.admission_day.isNone = false := by
          revert hnone
          cases a.admission_day <;> simp
        have h2 : decide (∃ pa ∈ sol, pa.id = p.id ∧ pa.admission_day = none) = false := by
          simp only [decide_eq_false_iff_not]
          intro hcon
          exact hnone (hiff.mp hcon)
        rw [h1, h2]
        simp only [optionalUnadmittedCount] at hrest ⊢
        push_cast
        ring

theorem probSig_patients {p q : ProblemInstance} (h : probSig p = probSig q) :
    p.patients = q.patients := congrArg (fun t => t.2.2.2.2.1) h

theorem probSig_weights {p q : ProblemInstance} (h : probSig p = probSig q) :
    p.weights = q.weights := congrArg (fun t => t.2.2.2.2.2.2.2.2) h

/-- Claim C10: when every patient of the problem definition appears exactly
once among the encoded patient entries, the decoded solution holds an entry
for every patient; consequently the per-patient lookups in the H5 evaluation
and in the S8 penalty always succeed (the unguarded dereference in H5 and the
optional-patient-not-found fault in S8 are never reached), H5 evaluates to
the number of mandatory patients without an admission day and S8 to that
count of optional patients times the weight. -/
theorem claim_C10 (s : Solver) (enc : EncodedSolution) (s1 : Solver)
    (hsame : s.originalProblem = s.problem)
    (honce : ∀ p ∈ s.problem.patients,
      enc.encoded_patients.countP (fun e => e.patient_id == p.id) = 1)
    (hdec : solveDecode s enc = .ok s1) :
    (∀ p ∈ s.problem.patients, ∃ pa ∈ s1.solution.patients, pa.id = p.id) ∧
    h5Count s1.solution.patients s1.originalProblem.patients =
      .ok ((mandatoryUnadmittedCount s1.originalProblem.patients s1.solution.patients : Nat) :
        Int) ∧
    calculateUnscheduledOptionalPatientsPenalty s1 =
      .ok (((optionalUnadmittedCount s1.problem.patients s1.solution.patients : Nat) : Int) *
        s1.problem.weights.unscheduled_optional) := by
  simp only [solveDecode, solveDecodeFromInit] at hdec
  cases hpart : partitionEncoded (initializeDynamicStates s).problem.patients
      enc.encoded_patients with
  | error er => rw [hpart, exBindErr] at hdec; cases hdec
  | ok mo =>
    rw [hpart, exBindOk] at hdec
    cases hp1 : processPatients true (initializeDynamicStates s) mo.1 with
    | error er => rw [hp1, exBindErr] at hdec; cases hdec
    | ok sA =>
      rw [hp1, exBindOk] at hdec
      cases hp2 : processPatients false sA mo.2 with
      | error er => rw [hp2, exBindErr] at hdec; cases hdec
      | ok sB =>
        rw [hp2, exBindOk] at hdec
        cases hdec
        obtain ⟨a1, a2, a3, a4, a5, acount⟩ := processPatients_shape true mo.1 _ sA hp1
        obtain ⟨b1, b2, b3, b4, b5, bcount⟩ := processPatients_shape false mo.2 sA sB hp2
        have hcount : ∀ c : String, sB.solution.patients.countP (fun pa => pa.id == c) =
            enc.encoded_patients.countP (fun e2 => e2.patient_id == c) := by
          intro c
          rw [bcount c, acount c]
          have h0 : (initializeDynamicStates s).solution.patients = [] := rfl
          rw [h0]
          simp only [List.countP_nil]
          have hpc := partitionEncoded_countP _ enc.encoded_patients mo.1 mo.2 hpart
            (fun e2 => e2.patient_id == c)
          omega
        have hsig : probSig sB.problem = probSig s.problem := by
          rw [b2, a2]
          rfl
        have hprobpat : sB.problem.patients = s.problem.patients := probSig_patients hsig
        have horig : sB.originalProblem = s.originalProblem := by
          rw [b1, a1]
          rfl
        refine ⟨?_, ?_, ?_⟩
        · intro p hp
          have h1 := hcount p.id
          rw [honce p hp] at h1
          have hpos : 0 < sB.solution.patients.countP (fun pa => pa.id == p.id) := by omega
          obtain ⟨pa, hpa, hq⟩ := List.countP_pos_iff.mp hpos
          exact ⟨pa, hpa, by simpa using hq⟩
        · apply h5Count_eq_count
          intro p hp hm
          have hp2m : p ∈ s.problem.patients := by
            have he : (solveNursePhase sB enc).originalProblem = s.originalProblem := horig
            rw [he, hsame] at hp
            exact hp
          show sB.solution.patients.countP (fun pa => pa.id == p.id) = 1
          rw [hcount p.id, honce p hp2m]
        · have hs8 : s8Aux (solveNursePhase sB enc).solution.patients
              (solveNursePhase sB enc).problem.patients =
              .ok ((optionalUnadmittedCount (solveNursePhase sB enc).problem.patients
                (solveNursePhase sB enc).solution.patients : Nat) : Int) := by
            apply s8Aux_eq_count
            intro p hp hm
            have hp2m : p ∈ s.problem.patients := by
              have he : (solveNursePhase sB enc).problem.patients = sB.problem.patients := rfl
              rw [he, hprobpat] at hp
              exact hp
            show sB.solution.patients.countP (fun pa => pa.id == p.id) = 1
            rw [hcount p.id, honce p hp2m]
          simp only [calculateUnscheduledOptionalPatientsPenalty]
          rw [hs8, exBindOk]

/-- Claim C10 witness: the exactly-once instance with one placed mandatory
and one unplaced optional patient. -/
theorem claim_C10_witness :
    (∀ p ∈ (mkSolver exactlyOnceProb).problem.patients,
      ∃ pa ∈ exactlyOnceDecoded.solution.patients, pa.id = p.id) ∧
    h5Count exactlyOnceDecoded.solution.patients exactlyOnceDecoded.originalProblem.patients =
      .ok ((mandatoryUnadmittedCount exactlyOnceDecoded.originalProblem.patients
        exactlyOnceDecoded.solution.patients : Nat) : Int) ∧
    calculateUnscheduledOptionalPatientsPenalty exactlyOnceDecoded =
      .ok (((optionalUnadmittedCount exactlyOnceDecoded.problem.patients
        exactlyOnceDecoded.solution.patients : Nat) : Int) *
        exactlyOnceDecoded.problem.weights.unscheduled_optional) :=
  claim_C10 (mkSolver exactlyOnceProb) exactlyOnceEnc exactlyOnceDecoded rfl
    (by decide) (by rfl)

theorem probSig_ext {p q : ProblemInstance} (h : probSig p = probSig q) (sg : List Surgeon) :
    ({ p with surgeons := sg } : ProblemInstance) = { q with surgeons := sg } := by
  cases p
  cases q
  simp only [probSig, Prod.mk.injEq] at h
  obtain ⟨h1, h2, h3, h4, h5, h6, h7, h8, h9⟩ := h
  subst h1
  subst h2
  subst h3
  subst h4
  subst h5
  subst h6
  subst h7
  subst h8
  subst h9
  rfl

theorem initializeDynamicStates_congr (s1 s : Solver)
    (horig : s1.originalProblem = s.originalProblem)
    (hsig : probSig s1.problem = probSig s.problem) :
    initializeDynamicStates s1 = initializeDynamicStates s := by
  obtain ⟨p1, o1, sol1⟩ := s1
  obtain ⟨p2, o2, sol2⟩ := s
  dsimp only at horig hsig
  subst horig
  cases p1
  cases p2
  simp only [probSig, Prod.mk.injEq] at hsig
  obtain ⟨h1, h2, h3, h4, h5, h6, h7, h8, h9⟩ := hsig
  subst h1
  subst h2
  subst h3
  subst h4
  subst h5
  subst h6
  subst h7
  subst h8
  subst h9
  rfl

theorem solveDecode_shape (s : Solver) (enc : EncodedSolution) (s1 : Solver)
    (h : solveDecode s enc = .ok s1) :
    s1.originalProblem = s.originalProblem ∧ probSig s1.problem = probSig s.problem := by
  simp only [solveDecode, solveDecodeFromInit] at h
  cases hpart : partitionEncoded (initializeDynamicStates s).problem.patients
      enc.encoded_patients with
  | error er => rw [hpart, exBindErr] at h; cases h
  | ok mo =>
    rw [hpart, exBindOk] at h
    cases hp1 : processPatients true (initializeDynamicStates s) mo.1 with
    | error er => rw [hp1, exBindErr] at h; cases h
    | ok sA =>
      rw [hp1, exBindOk] at h
      cases hp2 : processPatients false sA mo.2 with
      | error er => rw [hp2, exBindErr] at h; cases h
      | ok sB =>
        rw [hp2, exBindOk] at h
        cases h
        obtain ⟨a1, a2, -⟩ := processPatients_shape true mo.1 _ sA hp1
        obtain ⟨b1, b2, -⟩ := processPatients_shape false mo.2 sA sB hp2
        constructor
        · show sB.originalProblem = s.originalProblem
          rw [b1, a1]
          rfl
        · show probSig sB.problem = probSig s.problem
          rw [b2, a2]
          rfl

theorem calculateSoftConstraints_shape (s : Solver) (r : Solver × Int)
    (h : calculateSoftConstraints s = .ok r) :
    r.1.problem = s.problem ∧ r.1.originalProblem = s.originalProblem := by
  simp only [calculateSoftConstraints] at h
  cases h2 : calculateMinimumSkillPenalty s with
  | error er => rw [h2, exBindErr] at h; cases h
  | ok v2 =>
    rw [h2, exBindOk] at h
    cases h3 : calculateContinuityOfCarePenalty s with
    | error er => rw [h3, exBindErr] at h; cases h
    | ok v3 =>
      rw [h3, exBindOk] at h
      cases h4 : calculateMaximumWorkloadPenalty s with
      | error er => rw [h4, exBindErr] at h; cases h
      | ok v4 =>
        rw [h4, exBindOk] at h
        cases h7 : calculateAdmissionDelayPenalty s with
        | error er => rw [h7, exBindErr] at h; cases h
        | ok v7 =>
          rw [h7, exBindOk] at h
          cases h8 : calculateUnscheduledOptionalPatientsPenalty s with
          | error er => rw [h8, exBindErr] at h; cases h
          | ok v8 =>
            rw [h8, exBindOk] at h
            cases h
            exact ⟨rfl, rfl⟩

theorem solve_shape (s : Solver) (enc : EncodedSolution)
    (out : Solver × EncodedSolution × Int × Int) (h : solve s enc = .ok out) :
    out.1.originalProblem = s.originalProblem ∧ probSig out.1.problem = probSig s.problem := by
  simp only [solve, solveEvaluate] at h
  cases hd : solveDecode s enc with
  | error er => rw [hd, exBindErr] at h; cases h
  | ok sD =>
    rw [hd, exBindOk] at h
    cases hh : calculateHardConstraintViolations sD with
    | error er => rw [hh, exBindErr] at h; cases h
    | ok hard =>
      rw [hh, exBindOk] at h
      cases hs : calculateSoftConstraints sD with
      | error er => rw [hs, exBindErr] at h; cases h
      | ok q =>
        rw [hs, exBindOk] at h
        cases h
        obtain ⟨d1, d2⟩ := solveDecode_shape s enc sD hd
        obtain ⟨q1, q2⟩ := calculateSoftConstraints_shape sD q hs
        exact ⟨q2.trans d1, by rw [q1]; exact d2⟩

/-- Claim C1: `solve` is deterministic across successive calls: after a first
call on the same solver, a second call with the same encoding produces the
entire same result (in particular the identical (hardViolations, softPenalty)
pair); no mutation of surgeon budgets or of the dynamic room/theater state
leaks from the first call into the second. -/
theorem claim_C1 (s : Solver) (enc : EncodedSolution) (s1 : Solver)
    (r : EncodedSolution × Int × Int) (h : solve s enc = .ok (s1, r)) :
    solve s1 enc = solve s enc := by
  obtain ⟨h1, h2⟩ := solve_shape s enc (s1, r) h
  have hinit := initializeDynamicStates_congr s1 s h1 h2
  simp only [solve, solveDecode]
  rw [hinit]

/-- Claim C1 witness: on the empty instance, re-solving from the returned
state reproduces the first call exactly. -/
theorem claim_C1_witness : solve tinySolved tinyEnc = solve (mkSolver tinyProb) tinyEnc :=
  claim_C1 (mkSolver tinyProb) tinyEnc tinySolved (tinyEnc, 0, 0) (by rfl)

theorem length_setIdx : ∀ (l : List α) (i : Nat) (v : α), (setIdx l i v).length = l.length := by
  intro l
  induction l with
  | nil => intro i v; rfl
  | cons x xs ih =>
    intro i v
    cases i with
    | zero => rfl
    | succ i => simp [setIdx, ih]

theorem get?_setIdx : ∀ (l : List α) (i n : Nat) (v : α),
    (setIdx l i v).get? n = if n = i ∧ i < l.length then some v else l.get? n := by
  intro l
  induction l with
  | nil => intro i n v; simp [setIdx]
  | cons x xs ih =>
    intro i n v
    cases i with
    | zero =>
      cases n with
      | zero => simp [setIdx]
      | succ n => simp [setIdx]
    | succ i =>
      cases n with
      | zero => simp [setIdx]
      | succ n =>
        simp only [setIdx, List.get?_cons_succ, ih, List.length_cons]
        by_cases hni : n = i
        · subst hni
          by_cases hlt : n < xs.length
          · rw [if_pos ⟨rfl, hlt⟩, if_pos ⟨rfl, by omega⟩]
          · rw [if_neg (by omega), if_neg (by omega)]
        · rw [if_neg (by omega), if_neg (by omega)]

theorem getD_setIdx_self : ∀ (l : List α) (i : Nat) (v d : α), i < l.length →
    (setIdx l i v).getD i d = v := by
  intro l
  induction l with
  | nil => intro i v d h; cases h
  | cons x xs ih =>
    intro i v d h
    cases i with
    | zero => rfl
    | succ i =>
      simp only [setIdx, List.getD_cons_succ]
      exact ih i v d (by simpa using h)

theorem getD_setIdx_ne : ∀ (l : List α) (i j : Nat) (v d : α), i ≠ j →
    (setIdx l j v).getD i d = l.getD i d := by
  intro l
  induction l with
  | nil => intro i j v d h; simp [setIdx]
  | cons x xs ih =>
    intro i j v d h
    cases j with
    | zero =>
      cases i with
      | zero => exact absurd rfl h
      | succ i => rfl
    | succ j =>
      cases i with
      | zero => rfl
      | succ i =>
        simp only [setIdx, List.getD_cons_succ]
        exact ih i j v d (by omega)

theorem setIdx_setIdx_self : ∀ (l : List α) (i : Nat) (v w : α),
    setIdx (setIdx l i v) i w = setIdx l i w := by
  intro l
  induction l with
  | nil => intro i v w; rfl
  | cons x xs ih =>
    intro i v w
    cases i with
    | zero => rfl
    | succ i => simp [setIdx, ih]

theorem setIdx_comm : ∀ (l : List α) (i j : Nat) (v w : α), i ≠ j →
    setIdx (setIdx l i v) j w = setIdx (setIdx l j w) i v := by
  intro l
  induction l with
  | nil => intro i j v w h; rfl
  | cons x xs ih =>
    intro i j v w h
    cases i with
    | zero =>
      cases j with
      | zero => exact absurd rfl h
      | succ j => rfl
    | succ i =>
      cases j with
      | zero => rfl
      | succ j => simp [setIdx, ih i j v w (by omega)]

theorem setIdx_getD_self : ∀ (l : List α) (i : Nat) (d : α), i < l.length →
    setIdx l i (l.getD i d) = l := by
  intro l
  induction l with
  | nil => intro i d h; cases h
  | cons x xs ih =>
    intro i d h
    cases i with
    | zero => rfl
    | succ i =>
      simp only [List.getD_cons_succ, setIdx, List.cons.injEq, true_and]
      exact ih i d (by simpa using h)

theorem swapBlocks_involution (enc : EncodedSolution) (i j : Nat) (hij : i ≠ j)
    (hi : i < enc.encoded_nurses.length) (hj : j < enc.encoded_nurses.length) :
    swapBlocks (swapBlocks enc i j) i j = enc := by
  obtain ⟨eps, L⟩ := enc
  simp only [swapBlocks]
  congr 1
  have hlen1 : (setIdx (setIdx L i (L.getD j [])) j (L.getD i [])).length = L.length := by
    rw [length_setIdx, length_setIdx]
  have hgi : (setIdx (setIdx L i (L.getD j [])) j (L.getD i [])).getD i [] = L.getD j [] := by
    rw [getD_setIdx_ne _ _ _ _ _ hij, getD_setIdx_self _ _ _ _ hi]
  have hgj : (setIdx (setIdx L i (L.getD j [])) j (L.getD i [])).getD j [] = L.getD i [] := by
    rw [getD_setIdx_self _ _ _ _ (by rw [length_setIdx]; exact hj)]
  rw [hgi, hgj]
  rw [show setIdx (setIdx (setIdx L i (L.getD j [])) j (L.getD i [])) i (L.getD i []) =
      setIdx (setIdx L j (L.getD i [])) i (L.getD i []) from by
    rw [setIdx_comm _ _ _ _ _ (by omega : i ≠ j)]
    rw [setIdx_setIdx_self]]
  rw [setIdx_comm _ _ _ _ _ (by omega : i ≠ j), setIdx_setIdx_self,
    setIdx_getD_self _ _ _ hj, setIdx_getD_self _ _ _ hi]

theorem listExt (l l' : List α) (h : ∀ n : Nat, l.get? n = l'.get? n) : l = l' := by
  apply List.ext_getElem?
  intro n
  have h2 := h n
  simpa [List.get?_eq_getElem?] using h2

theorem maskSoft_setSlots (l : List Int) (a b c : Int) :
    maskSoft (setIdx (setIdx (setIdx l 1 a) 2 b) 3 c) = maskSoft l := by
  apply listExt
  intro n
  simp only [maskSoft, get?_setIdx, length_setIdx]
  split_ifs <;> rfl

theorem setSlots_congr {l l' : List Int} (h : maskSoft l = maskSoft l') (a b c : Int) :
    setIdx (setIdx (setIdx l 1 a) 2 b) 3 c = setIdx (setIdx (setIdx l' 1 a) 2 b) 3 c := by
  have hlen : l.length = l'.length := by
    have h2 := congrArg List.length h
    simpa [maskSoft, length_setIdx] using h2
  apply listExt
  intro n
  have hn := congrArg (fun t => t.get? n) h
  simp only [maskSoft, get?_setIdx, length_setIdx] at hn
  simp only [get?_setIdx, length_setIdx]
  rw [hlen] at hn ⊢
  split_ifs at hn ⊢ <;> first | rfl | omega | assumption

theorem stableEq_refl (s : Solver) : stableEq s s := ⟨rfl, rfl, rfl, rfl, rfl, rfl⟩

theorem stableEq_trans {a b c : Solver} (h1 : stableEq a b) (h2 : stableEq b c) :
    stableEq a c := by
  obtain ⟨x1, x2, x3, x4, x5, x6⟩ := h1
  obtain ⟨y1, y2, y3, y4, y5, y6⟩ := h2
  exact ⟨x1.trans y1, x2.trans y2, x3.trans y3, x4.trans y4, x5.trans y5, x6.trans y6⟩

theorem applyNurses_stable (s : Solver) (e : EncodedSolution) :
    stableEq (applyNurses s e) s := ⟨rfl, rfl, rfl, rfl, rfl, rfl⟩

theorem cnoc_stable (s : Solver) (r : Solver × Int × Int)
    (h : computeNurseOnlyCosts s = .ok r) : stableEq r.1 s := by
  simp only [computeNurseOnlyCosts] at h
  cases hv2 : calculateMinimumSkillPenalty s with
  | error er => rw [hv2, exBindErr] at h; cases h
  | ok v2 =>
    rw [hv2, exBindOk] at h
    cases hv3 : calculateContinuityOfCarePenalty s with
    | error er => rw [hv3, exBindErr] at h; cases h
    | ok v3 =>
      rw [hv3, exBindOk] at h
      cases hv4 : calculateMaximumWorkloadPenalty s with
      | error er => rw [hv4, exBindErr] at h; cases h
      | ok v4 =>
        rw [hv4, exBindOk] at h
        cases hha : calculateHardConstraintViolations
            { s with solution := { s.solution with
                soft_constraints := setIdx (setIdx (setIdx s.solution.soft_constraints 1 v2)
                  2 v3) 3 v4,
                total_soft_constraints := (setIdx (setIdx (setIdx s.solution.soft_constraints
                  1 v2) 2 v3) 3 v4).foldl (fun a b => a + b) 0 } } with
        | error er => rw [hha, exBindErr] at h; cases h
        | ok hard =>
          rw [hha, exBindOk] at h
          cases h
          exact ⟨rfl, rfl, rfl, rfl, rfl, maskSoft_setSlots _ _ _ _⟩

theorem cnoc_apply_congr (s t : Solver) (e : EncodedSolution) (h : stableEq s t) :
    (computeNurseOnlyCosts (applyNurses s e)).map (fun r => r.2) =
    (computeNurseOnlyCosts (applyNurses t e)).map (fun r => r.2) := by
  obtain ⟨hp, ho, hrs, hts, hpa, hsoft⟩ := h
  have h2 : calculateMinimumSkillPenalty (applyNurses s e) =
      calculateMinimumSkillPenalty (applyNurses t e) := by
    simp only [calculateMinimumSkillPenalty, applyNurses]
    rw [hp, hrs, hpa]
  have h3 : calculateContinuityOfCarePenalty (applyNurses s e) =
      calculateContinuityOfCarePenalty (applyNurses t e) := by
    simp only [calculateContinuityOfCarePenalty, applyNurses]
    rw [hp, hrs, hpa]
  have h4 : calculateMaximumWorkloadPenalty (applyNurses s e) =
      calculateMaximumWorkloadPenalty (applyNurses t e) := by
    simp only [calculateMaximumWorkloadPenalty, applyNurses]
    rw [hp, hrs, hpa]
  have hsc : (applyNurses s e).solution.soft_constraints = s.solution.soft_constraints := rfl
  have hsct : (applyNurses t e).solution.soft_constraints = t.solution.soft_constraints := rfl
  have hrs' : (applyNurses s e).solution.roomStates = (applyNurses t e).solution.roomStates := by
    simp only [applyNurses]
    exact hrs
  have hts' : (applyNurses s e).solution.theaterStates =
      (applyNurses t e).solution.theaterStates := by
    simp only [applyNurses]
    exact hts
  have hpa' : (applyNurses s e).solution.patients = (applyNurses t e).solution.patients := by
    simp only [applyNurses]
    exact hpa
  have hnur : (applyNurses s e).solution.nurses = (applyNurses t e).solution.nurses := by
    simp only [applyNurses]
    rw [hp]
  have horig : (applyNurses s e).originalProblem = (applyNurses t e).originalProblem := by
    simp only [applyNurses]
    exact ho
  simp only [computeNurseOnlyCosts]
  rw [← h2, ← h3, ← h4]
  cases hv2 : calculateMinimumSkillPenalty (applyNurses s e) with
  | error er => simp only [hv2, exBindErr, Except.map]
  | ok v2 =>
    simp only [hv2, exBindOk]
    cases hv3 : calculateContinuityOfCarePenalty (applyNurses s e) with
    | error er => simp only [hv3, exBindErr, Except.map]
    | ok v3 =>
      simp only [hv3, exBindOk]
      cases hv4 : calculateMaximumWorkloadPenalty (applyNurses s e) with
      | error er => simp only [hv4, exBindErr, Except.map]
      | ok v4 =>
        simp only [hv4, exBindOk]
        rw [hsc, hsct, setSlots_congr hsoft v2 v3 v4]
        have hH : calculateHardConstraintViolations
            { applyNurses s e with solution := { (applyNurses s e).solution with
                soft_constraints := setIdx (setIdx (setIdx t.solution.soft_constraints 1 v2)
                  2 v3) 3 v4,
                total_soft_constraints := (setIdx (setIdx (setIdx t.solution.soft_constraints
                  1 v2) 2 v3) 3 v4).foldl (fun a b => a + b) 0 } } =
            calculateHardConstraintViolations
            { applyNurses t e with solution := { (applyNurses t e).solution with
                soft_constraints := setIdx (setIdx (setIdx t.solution.soft_constraints 1 v2)
                  2 v3) 3 v4,
                total_soft_constraints := (setIdx (setIdx (setIdx t.solution.soft_constraints
                  1 v2) 2 v3) 3 v4).foldl (fun a b => a + b) 0 } } := by
          simp only [calculateHardConstraintViolations]
          rw [show ({ applyNurses s e with solution := { (applyNurses s e).solution with
                soft_constraints := setIdx (setIdx (setIdx t.solution.soft_constraints 1 v2)
                  2 v3) 3 v4,
                total_soft_constraints := (setIdx (setIdx (setIdx t.solution.soft_constraints
                  1 v2) 2 v3) 3 v4).foldl (fun a b => a + b) 0 } } : Solver).originalProblem =
              (applyNurses t e).originalProblem from horig]
          congr 1
          rw [hrs', hts', hpa', hnur]
        rw [hH]
        cases hhh : calculateHardConstraintViolations
            { applyNurses t e with solution := { (applyNurses t e).solution with
                soft_constraints := setIdx (setIdx (setIdx t.solution.soft_constraints 1 v2)
                  2 v3) 3 v4,
                total_soft_constraints := (setIdx (setIdx (setIdx t.solution.soft_constraints
                  1 v2) 2 v3) 3 v4).foldl (fun a b => a + b) 0 } } with
        | error er => simp only [hhh, exBindErr, Except.map]
        | ok hard => simp only [hhh, exBindOk, Except.map]

theorem pairIndices_bounds (n : Nat) :
    ∀ ij ∈ pairIndices n, ij.1 < ij.2 ∧ ij.2 < n := by
  intro ij hij
  simp only [pairIndices, List.mem_flatMap, List.mem_map, List.mem_filter,
    List.mem_range, decide_eq_true_eq] at hij
  obtain ⟨i, hi, j, ⟨hjr, hlt⟩, rfl⟩ := hij
  exact ⟨hlt, hjr⟩

theorem lsnLoop_spec (s1 : Solver) (enc1 : EncodedSolution) (hard0 soft0 : Int)
    (meta : List (Int × String)) :
    ∀ (ps : List (Nat × Nat)) (s : Solver), stableEq s s1 →
    (∀ ij ∈ ps, ij.1 < ij.2 ∧ ij.2 < enc1.encoded_nurses.length) →
    ∀ out, lsnLoop hard0 soft0 meta s enc1 ps = .ok out →
    (∃ pre ij post,
        ps.filter (fun q => sameBlockMeta meta q.1 q.2) = pre ++ ij :: post ∧
        (∀ q ∈ pre, ∀ hv sv, nurseEval s1 enc1 q.1 q.2 = .ok (hv, sv) →
          ¬ improvesLex hard0 soft0 hv sv) ∧
        nurseEval s1 enc1 ij.1 ij.2 = .ok (out.2.2.1, out.2.2.2) ∧
        improvesLex hard0 soft0 out.2.2.1 out.2.2.2 ∧
        out.2.1 = swapBlocks enc1 ij.1 ij.2) ∨
    ((∀ q ∈ ps.filter (fun q => sameBlockMeta meta q.1 q.2), ∀ hv sv,
        nurseEval s1 enc1 q.1 q.2 = .ok (hv, sv) → ¬ improvesLex hard0 soft0 hv sv) ∧
     out.2.1 = enc1 ∧ out.2.2.1 = hard0 ∧ out.2.2.2 = soft0) := by
  intro ps
  induction ps with
  | nil =>
    intro s hst hbound out hloop
    simp only [lsnLoop] at hloop
    cases hloop
    right
    exact ⟨fun q hq => absurd hq (by simp), rfl, rfl, rfl⟩
  | cons ij0 rest ih =>
    obtain ⟨i, j⟩ := ij0
    intro s hst hbound out hloop
    simp only [lsnLoop] at hloop
    by_cases hsm : sameBlockMeta meta i j = true
    · rw [if_neg (by simp [hsm])] at hloop
      cases hcn : computeNurseOnlyCosts (applyNurses s (swapBlocks enc1 i j)) with
      | error er => rw [hcn, exBindErr] at hloop; cases hloop
      | ok r =>
        rw [hcn, exBindOk] at hloop
        have hne : nurseEval s1 enc1 i j = .ok r.2 := by
          simp only [nurseEval]
          rw [← cnoc_apply_congr s s1 (swapBlocks enc1 i j) hst, hcn]
          rfl
        by_cases himp : r.2.1 < hard0 ∨ (r.2.1 = hard0 ∧ r.2.2 < soft0)
        · rw [if_pos himp] at hloop
          cases hloop
          left
          refine ⟨[], (i, j), rest.filter (fun q => sameBlockMeta meta q.1 q.2),
            ?_, ?_, hne, himp, rfl⟩
          · simp [List.filter_cons, hsm]
          · intro q hq
            cases hq
        · rw [if_neg himp] at hloop
          have hb := hbound (i, j) (List.mem_cons_self _ _)
          have henc : swapBlocks (swapBlocks enc1 i j) i j = enc1 :=
            swapBlocks_involution enc1 i j (by omega) (by omega) hb.2
          rw [henc] at hloop
          have hstable2 : stableEq r.1 s1 :=
            stableEq_trans (stableEq_trans (cnoc_stable _ _ hcn) (applyNurses_stable s _)) hst
          have hrec := ih r.1 hstable2
            (fun q hq => hbound q (List.mem_cons_of_mem _ hq)) out hloop
          rcases hrec with ⟨pre, ij2, post, hfil, hpre, hok, himp2, hout⟩ |
            ⟨hall, h1, h2, h3⟩
          · left
            refine ⟨(i, j) :: pre, ij2, post, ?_, ?_, hok, himp2, hout⟩
            · rw [List.filter_cons, if_pos hsm, hfil]
              rfl
            · intro q hq
              rcases List.mem_cons.mp hq with rfl | hq2
              · intro hv sv hnev
                rw [hne] at hnev
                have hinj := Except.ok.inj hnev
                intro hcontra
                apply himp
                rw [hinj]
                exact hcontra
              · exact hpre q hq2
          · right
            refine ⟨?_, h1, h2, h3⟩
            intro q hq
            rw [List.filter_cons, if_pos hsm] at hq
            rcases List.mem_cons.mp hq with rfl | hq2
            · intro hv sv hnev
              rw [hne] at hnev
              have hinj := Except.ok.inj hnev
              intro hcontra
              apply himp
              rw [hinj]
              exact hcontra
            · exact hall q hq2
    · rw [if_pos (by simp [hsm])] at hloop
      have hsm2 : sameBlockMeta meta i j = false := by
        revert hsm
        cases sameBlockMeta meta i j <;> simp
      have hrec := ih s hst (fun q hq => hbound q (List.mem_cons_of_mem _ hq)) out hloop
      rw [show ((i, j) :: rest).filter (fun q => sameBlockMeta meta q.1 q.2) =
        rest.filter (fun q => sameBlockMeta meta q.1 q.2) from by
          rw [List.filter_cons, if_neg (by simp [hsm2])]]
      exact hrec

/-- C5: given the initial full solve of `localSearchNurses` returns state
`s1`, encoding `enc1` and scores `(hard0, soft0)`, the local search either
returns the first same-(day, shift) block swap (in the canonical pair order)
whose nurse-only re-evaluation strictly improves lexicographically over
`(hard0, soft0)` — with no earlier candidate improving — or, when no
candidate improves, returns the initial scores with the encoding restored;
in both cases the returned hard count never exceeds `hard0`. -/
theorem claim_C5 (s : Solver) (enc : EncodedSolution)
    (s1 : Solver) (enc1 : EncodedSolution) (hard0 soft0 : Int)
    (out : Solver × EncodedSolution × Int × Int)
    (hsolve : solve s enc = .ok (s1, enc1, hard0, soft0))
    (hlsn : localSearchNurses s enc = .ok out) :
    LsnOutcome s1 enc1 hard0 soft0 out ∧ out.2.2.1 ≤ hard0 := by
  simp only [localSearchNurses] at hlsn
  rw [hsolve, exBindOk] at hlsn
  have hspec := lsnLoop_spec s1 enc1 hard0 soft0 (blockMetaOf s1.problem)
    (pairIndices enc1.encoded_nurses.length) s1 (stableEq_refl s1)
    (pairIndices_bounds _) out hlsn
  refine ⟨hspec, ?_⟩
  rcases hspec with ⟨pre, ij, post, hfil, hpre, hok, himp, hout⟩ | ⟨hall, h1, h2, h3⟩
  · simp only [improvesLex] at himp
    omega
  · omega

theorem claim_C5_witness :
    LsnOutcome tinySolved tinyEnc 0 0 (tinySolved, tinyEnc, 0, 0) ∧
    ((tinySolved, tinyEnc, (0 : Int), (0 : Int)) :
      Solver × EncodedSolution × Int × Int).2.2.1 ≤ 0 :=
  claim_C5 (mkSolver tinyProb) tinyEnc tinySolved tinyEnc 0 0
    (tinySolved, tinyEnc, 0, 0) (by rfl) (by rfl)
